import Mathlib

/-!
# The Go object-detection demo client (`src/demos/clients/Go/object-detect.go`)

The program is one straight-line `main`: open the image, build a multipart body,
POST it, decode the JSON answer, print one line per prediction.  Every fallible call
is followed by `log.Fatalf` except `file.Seek`, whose results are discarded.

The embedding has three layers.

* The standard-library facilities that `main` calls (`encoding/json`, `fmt`,
  `mime/multipart`) are modelled as pure functions, at the level of detail that the
  behaviour of `main` depends on.
* Everything outside the process (file system, random source, network, server) is a
  `World` record that fixes the outcome of every external call.
* `main : World → Run` follows the source statement by statement and returns the
  sequence of effects together with the exit status.
-/

namespace ObjectDetect

/-! ## Constants (source lines 14-17) -/

/-- Endpoint constant `apiUrl`. -/
def apiUrl : String := "http://localhost:32168/v1/vision/detection"

/-- Path constant `imagePath`; the Go literal contains escaped backslashes. -/
def imagePath : String := "..\\..\\TestData\\Objects\\study-group.jpg"

/-! ## Data model (source lines 19-28) -/

/-- A finite `float64`: the value is `(-1)^neg * mant * 2^exp`.  JSON numbers cannot
decode to an infinity or a NaN, so finite values are all that `Score` can hold. -/
structure Float64 where
  neg : Bool
  mant : Nat
  exp : Int
deriving DecidableEq, Repr

/-- The magnitude of a `Float64` as a rational number. -/
def Float64.abs (f : Float64) : ℚ := (f.mant : ℚ) * (2 : ℚ) ^ f.exp

/-- The value of a `Float64` as a rational number. -/
def Float64.toRat (f : Float64) : ℚ := if f.neg then - f.abs else f.abs

/-- The element type of `DetectionResponse.Predictions`. -/
structure Prediction where
  Label : String
  Score : Float64
  XMin : Int
  YMin : Int
  XMax : Int
  YMax : Int
deriving DecidableEq, Repr

/-- The Go zero value of the element struct. -/
def Prediction.zero : Prediction :=
  { Label := "", Score := ⟨false, 0, 0⟩, XMin := 0, YMin := 0, XMax := 0, YMax := 0 }

/-- A Go slice of predictions: the backing array and the length in use.  Elements of
the backing array at index `len` and above are not visible, and indices past the end
of `backing` stand for zeroed spare capacity. -/
structure Slice where
  backing : List Prediction
  len : Nat
deriving DecidableEq, Repr

/-- The nil slice. -/
def Slice.nil : Slice := ⟨[], 0⟩

/-- The elements a `range` loop over the slice visits. -/
def Slice.toList (s : Slice) : List Prediction := s.backing.take s.len

/-- The struct `DetectionResponse`. -/
structure DetectionResponse where
  Predictions : Slice
deriving DecidableEq, Repr

/-- The zero value of `var detectionResponse DetectionResponse`. -/
def DetectionResponse.zero : DetectionResponse := ⟨Slice.nil⟩

/-! ## JSON values -/

/-- A JSON number literal: optional minus sign, integer part, the digits after the
decimal point (`[]` when the literal has no fraction) and the exponent (`none` when
the literal has no exponent part). -/
structure JNumber where
  neg : Bool
  int : Nat
  frac : List (Fin 10)
  exp : Option Int
deriving DecidableEq, Repr

/-- A well-formed JSON text, as the scanner of `encoding/json` accepts it.  Objects
keep their members in document order, duplicates included. -/
inductive JSON where
  | null
  | bool (b : Bool)
  | num (n : JNumber)
  | str (s : String)
  | arr (xs : List JSON)
  | obj (members : List (String × JSON))

/-- The JSON kinds an `UnmarshalTypeError` reports in its `Value` field. -/
inductive JKind where
  | bool | number | string | array | object
deriving DecidableEq, Repr

/-- The Go types that occur as decoding targets. -/
inductive GoType where
  | string | int | float64 | predictionSlice | predictionStruct | detectionResponse
deriving DecidableEq, Repr

/-- The content of a `*json.UnmarshalTypeError`: which JSON value could not be
stored into which Go type. -/
structure TypeError where
  value : JKind
  type : GoType
deriving DecidableEq, Repr

/-- Go `error` values that reach `log.Fatalf`. -/
inductive GoError where
  | msg (text : String)
  | invalidJSON (text : String)
  | unmarshalType (e : TypeError)
deriving DecidableEq, Repr

/-! ## `strconv` conversions used by the decoder -/

/-- Number of binary digits of `n`, by structural recursion on a fuel argument. -/
def bitLenAux : Nat → Nat → Nat
  | 0, _ => 0
  | fuel + 1, n => if n = 0 then 0 else bitLenAux fuel (n / 2) + 1

/-- Number of binary digits of `n` (`0` for `0`). -/
def bitLen (n : Nat) : Nat := bitLenAux n n

/-- Nearest integer to `num / den`, ties to the even neighbour. -/
def roundHalfEven (num den : Nat) : Nat :=
  let q := num / den
  let r := num % den
  if 2 * r < den then q
  else if den < 2 * r then q + 1
  else if q % 2 = 0 then q else q + 1

/-- All digits of the literal, read as one natural number. -/
def JNumber.digits (n : JNumber) : Nat :=
  n.frac.foldl (fun acc d => 10 * acc + d.val) n.int

/-- The decimal exponent that goes with `JNumber.digits`. -/
def JNumber.exp10 (n : JNumber) : Int := n.exp.getD 0 - (n.frac.length : Int)

/-- The fraction `num / den` scaled by `2^(-e)`, as a numerator and a denominator. -/
def scalePow2 (num den : Nat) (e : Int) : Nat × Nat :=
  if 0 ≤ e then (num, den * 2 ^ e.toNat) else (num * 2 ^ (-e).toNat, den)

/-- Nearest `float64` to the positive fraction `num / den` (IEEE 754 round to
nearest even, gradual underflow); `none` when the rounded value exceeds the largest
finite `float64`. -/
def nearestFloat64 (neg : Bool) (num den : Nat) : Option Float64 :=
  if num = 0 then some ⟨neg, 0, 0⟩
  else
    -- floor (log2 (num / den)) is l0 or l0 - 1
    let l0 : Int := (bitLen num : Int) - (bitLen den : Int)
    let s := scalePow2 num den l0
    let l : Int := if s.2 ≤ s.1 then l0 else l0 - 1
    let e : Int := max (l - 52) (-1074)
    let t := scalePow2 num den e
    let m := roundHalfEven t.1 t.2
    let me : Nat × Int := if m = 2 ^ 53 then (2 ^ 52, e + 1) else (m, e)
    if 971 < me.2 then none else some ⟨neg, me.1, me.2⟩

/-- Model of `strconv.ParseFloat(literal, 64)` on a JSON number literal: the nearest
`float64`, or `none` for the range error. -/
def parseFloat (n : JNumber) : Option Float64 :=
  if 0 ≤ n.exp10 then nearestFloat64 n.neg (n.digits * 10 ^ n.exp10.toNat) 1
  else nearestFloat64 n.neg n.digits (10 ^ (-n.exp10).toNat)

/-- Model of `strconv.ParseInt(literal, 10, 64)` on a JSON number literal: the
literal must consist of an optional sign and digits only, and the value must fit
in 64 bits (`int` on the 64-bit platforms the client is built for). -/
def parseInt (n : JNumber) : Option Int :=
  if n.frac ≠ [] ∨ n.exp ≠ none then none
  else
    let v : Int := if n.neg then - (n.int : Int) else (n.int : Int)
    if - (2 : Int) ^ 63 ≤ v ∧ v < (2 : Int) ^ 63 then some v else none

/-! ## `encoding/json`: storing a JSON value into the Go targets

`json.Unmarshal` first validates the whole text and then walks it once.  A value of
the wrong kind does not stop the walk: the first such error is remembered
(`d.saveError`), the value is skipped, and the error is returned at the end.  A JSON
`null` leaves strings, numbers and structs untouched and resets a slice to nil.  An
object member whose name matches no field is skipped. -/

/-- The decoder state that matters here: the first remembered error, if any. -/
abbrev Saved := Option TypeError

/-- Body of `d.saveError`: only the first error is kept. -/
def saveError (s : Saved) (e : TypeError) : Saved :=
  match s with
  | none => some e
  | some e0 => some e0

/-- Store a JSON value into a Go `string` that currently holds `cur`. -/
def storeString (cur : String) (s : Saved) : JSON → String × Saved
  | .null => (cur, s)
  | .str t => (t, s)
  | .bool _ => (cur, saveError s ⟨.bool, .string⟩)
  | .num _ => (cur, saveError s ⟨.number, .string⟩)
  | .arr _ => (cur, saveError s ⟨.array, .string⟩)
  | .obj _ => (cur, saveError s ⟨.object, .string⟩)

/-- Store a JSON value into a Go `int` that currently holds `cur`. -/
def storeInt (cur : Int) (s : Saved) : JSON → Int × Saved
  | .null => (cur, s)
  | .num n =>
    match parseInt n with
    | some v => (v, s)
    | none => (cur, saveError s ⟨.number, .int⟩)
  | .bool _ => (cur, saveError s ⟨.bool, .int⟩)
  | .str _ => (cur, saveError s ⟨.string, .int⟩)
  | .arr _ => (cur, saveError s ⟨.array, .int⟩)
  | .obj _ => (cur, saveError s ⟨.object, .int⟩)

/-- Store a JSON value into a Go `float64` that currently holds `cur`. -/
def storeFloat (cur : Float64) (s : Saved) : JSON → Float64 × Saved
  | .null => (cur, s)
  | .num n =>
    match parseFloat n with
    | some v => (v, s)
    | none => (cur, saveError s ⟨.number, .float64⟩)
  | .bool _ => (cur, saveError s ⟨.bool, .float64⟩)
  | .str _ => (cur, saveError s ⟨.string, .float64⟩)
  | .arr _ => (cur, saveError s ⟨.array, .float64⟩)
  | .obj _ => (cur, saveError s ⟨.object, .float64⟩)

/-- Case folding of one character of a member name: ASCII letters go to upper case,
and the two non-ASCII characters whose simple fold orbit contains an ASCII letter
(long s, Kelvin sign) go to that letter.  Other characters cannot occur in a name
that folds to an all-ASCII field name, so they are left alone. -/
def foldChar (c : Char) : Char :=
  if 'a' ≤ c ∧ c ≤ 'z' then Char.ofNat (c.toNat - 32)
  else if c = Char.ofNat 0x17F then 'S'
  else if c = Char.ofNat 0x212A then 'K'
  else c

/-- Case folding of a member name (`foldName` of `encoding/json`). -/
def foldName (s : String) : String := ⟨s.data.map foldChar⟩

/-- The field selected by an object member name among the JSON names of a struct:
an exact match is preferred, a match up to case folding is accepted. -/
def findField (names : List String) (key : String) : Option String :=
  match names.find? (fun n => n == key) with
  | some n => some n
  | none => names.find? (fun n => foldName n == foldName key)

/-- JSON names of the fields of the element struct (the `json:"..."` tags). -/
def predictionFields : List String :=
  ["label", "confidence", "x_min", "y_min", "x_max", "y_max"]

/-- JSON names of the fields of `DetectionResponse`. -/
def responseFields : List String := ["predictions"]

/-- Store one object member into the element struct. -/
def storePredictionMember (ps : Prediction × Saved) (kv : String × JSON) :
    Prediction × Saved :=
  let p := ps.1
  let s := ps.2
  match findField predictionFields kv.1 with
  | some "label" => let r := storeString p.Label s kv.2; ({ p with Label := r.1 }, r.2)
  | some "confidence" => let r := storeFloat p.Score s kv.2; ({ p with Score := r.1 }, r.2)
  | some "x_min" => let r := storeInt p.XMin s kv.2; ({ p with XMin := r.1 }, r.2)
  | some "y_min" => let r := storeInt p.YMin s kv.2; ({ p with YMin := r.1 }, r.2)
  | some "x_max" => let r := storeInt p.XMax s kv.2; ({ p with XMax := r.1 }, r.2)
  | some "y_max" => let r := storeInt p.YMax s kv.2; ({ p with YMax := r.1 }, r.2)
  | _ => (p, s)

/-- Store a JSON value into an element struct that currently holds `cur`. -/
def storePrediction (cur : Prediction) (s : Saved) : JSON → Prediction × Saved
  | .null => (cur, s)
  | .obj members => members.foldl storePredictionMember (cur, s)
  | .bool _ => (cur, saveError s ⟨.bool, .predictionStruct⟩)
  | .num _ => (cur, saveError s ⟨.number, .predictionStruct⟩)
  | .str _ => (cur, saveError s ⟨.string, .predictionStruct⟩)
  | .arr _ => (cur, saveError s ⟨.array, .predictionStruct⟩)

/-- The loop of `d.array` over the elements of a JSON array: element `i` is decoded
in place into slot `i` of the backing array (a zero value if the slot is new). -/
def storeElements (old : List Prediction) :
    List JSON → Nat → Saved → List Prediction × Saved
  | [], _, s => ([], s)
  | x :: xs, i, s =>
    let r := storePrediction (old.getD i Prediction.zero) s x
    let rest := storeElements old xs (i + 1) r.2
    (r.1 :: rest.1, rest.2)

/-- Store a JSON value into the slice `cur`.  An array is decoded element by
element and the slice is cut to the number of elements; an empty array yields a
fresh empty slice. -/
def storeSlice (cur : Slice) (s : Saved) : JSON → Slice × Saved
  | .null => (Slice.nil, s)
  | .arr xs =>
    let r := storeElements cur.backing xs 0 s
    if xs.isEmpty then (⟨[], 0⟩, r.2)
    else (⟨r.1 ++ cur.backing.drop xs.length, xs.length⟩, r.2)
  | .bool _ => (cur, saveError s ⟨.bool, .predictionSlice⟩)
  | .num _ => (cur, saveError s ⟨.number, .predictionSlice⟩)
  | .str _ => (cur, saveError s ⟨.string, .predictionSlice⟩)
  | .obj _ => (cur, saveError s ⟨.object, .predictionSlice⟩)

/-- Store one object member into `DetectionResponse`. -/
def storeResponseMember (rs : DetectionResponse × Saved) (kv : String × JSON) :
    DetectionResponse × Saved :=
  match findField responseFields kv.1 with
  | some _ => let r := storeSlice rs.1.Predictions rs.2 kv.2; (⟨r.1⟩, r.2)
  | none => rs

/-- Store a JSON value into a `DetectionResponse` that currently holds `cur`. -/
def storeResponse (cur : DetectionResponse) (s : Saved) :
    JSON → DetectionResponse × Saved
  | .null => (cur, s)
  | .obj members => members.foldl storeResponseMember (cur, s)
  | .bool _ => (cur, saveError s ⟨.bool, .detectionResponse⟩)
  | .num _ => (cur, saveError s ⟨.number, .detectionResponse⟩)
  | .str _ => (cur, saveError s ⟨.string, .detectionResponse⟩)
  | .arr _ => (cur, saveError s ⟨.array, .detectionResponse⟩)

/-- The bytes of a response body as `json.Unmarshal` sees them: a syntax error with
its message, or a well-formed JSON text. -/
abbrev Body := Except String JSON

/-- Model of `json.Unmarshal(responseBody, &detectionResponse)` for a target that
holds `cur`: a syntax error is returned before anything is stored; otherwise the
value is stored and the first remembered type error, if any, is returned. -/
def Unmarshal (body : Body) (cur : DetectionResponse) : Except GoError DetectionResponse :=
  match body with
  | .error text => .error (.invalidJSON text)
  | .ok v =>
    match storeResponse cur none v with
    | (r, none) => .ok r
    | (_, some e) => .error (.unmarshalType e)

/-! ## `fmt`: the verbs of the output line (source line 93) -/

/-- The scaled magnitude `round (|f| * 100)`, ties to even, of a `Float64`. -/
def Float64.hundredths (f : Float64) : Nat :=
  if 0 ≤ f.exp then f.mant * 2 ^ f.exp.toNat * 100
  else roundHalfEven (f.mant * 100) (2 ^ (-f.exp).toNat)

/-- Model of the verb `%.2f` on a finite `float64`: sign if the sign bit is set,
integer digits, a point and two fraction digits of the correctly rounded value;
never an exponent form. -/
def fmtF2 (f : Float64) : String :=
  let n := f.hundredths
  (if f.neg then "-" else "") ++ Nat.repr (n / 100) ++ "." ++
    String.mk [Nat.digitChar (n % 100 / 10), Nat.digitChar (n % 10)]

/-- Model of the verb `%d` on an `int`. -/
def fmtD (i : Int) : String :=
  if i < 0 then "-" ++ Nat.repr i.natAbs else Nat.repr i.natAbs

/-- The text of one output line, without its final newline. -/
def formatLine (p : Prediction) : String :=
  "Object: " ++ p.Label ++ ", Confidence: " ++ fmtF2 p.Score ++ ", Bounding Box: [" ++
    fmtD p.XMin ++ ", " ++ fmtD p.YMin ++ ", " ++ fmtD p.XMax ++ ", " ++ fmtD p.YMax ++ "]"

/-- The text one call of `fmt.Printf` on source line 93 writes. -/
def printfText (p : Prediction) : String := formatLine p ++ "\n"

/-! ## `mime/multipart`: the writer (source lines 38-62, 69) -/

/-- Raw bytes: file contents and request bodies. -/
abbrev Bytes := List UInt8

/-- The UTF-8 bytes of a Go string. -/
def strBytes (s : String) : Bytes := s.data.flatMap String.utf8EncodeChar

/-- Two lower-case hexadecimal digits of one byte (the verb `%x` on a byte slice). -/
def hexByte (b : UInt8) : List Char :=
  [Nat.digitChar (b.toNat / 16), Nat.digitChar (b.toNat % 16)]

/-- Body of `randomBoundary`: thirty bytes from the random source, printed with `%x`. -/
def randomBoundary (rand : Fin 30 → UInt8) : String :=
  ⟨(List.ofFn rand).flatMap hexByte⟩

/-- State of a `multipart.Writer`: the bytes written to the underlying buffer so far,
the boundary, and whether a part is open (`lastpart != nil`). -/
structure Writer where
  w : Bytes
  boundary : String
  lastpart : Bool
deriving DecidableEq, Repr

/-- `multipart.NewWriter(body)` over the empty buffer `body`. -/
def NewWriter (rand : Fin 30 → UInt8) : Writer := ⟨[], randomBoundary rand, false⟩

/-- The backslash character. -/
def backslash : Char := Char.ofNat 92

/-- The double-quote character. -/
def dquote : Char := Char.ofNat 34

/-- Body of `escapeQuotes`: backslash and double quote get a backslash in front.
(Releases that also rewrite line breaks agree with this on the two constants the
program passes, which contain none.) -/
def escapeQuotes (s : String) : String :=
  ⟨s.data.flatMap (fun c =>
    if c = backslash then [backslash, backslash]
    else if c = dquote then [backslash, dquote] else [c])⟩

/-- The header block `CreateFormFile` gives a part, keys in sorted order. -/
def formFileHeader (fieldname filename : String) : String :=
  "Content-Disposition: form-data; name=\"" ++ escapeQuotes fieldname ++
    "\"; filename=\"" ++ escapeQuotes filename ++ "\"\r\n" ++
    "Content-Type: application/octet-stream\r\n"

/-- Successful `writer.CreateFormFile(fieldname, filename)`: the delimiter line (with
a leading line break unless this is the first part), the header block and the empty
line are written, and the new part becomes the open part. -/
def Writer.CreateFormFile (wr : Writer) (fieldname filename : String) : Writer :=
  let delim := if wr.lastpart then "\r\n--" ++ wr.boundary ++ "\r\n"
    else "--" ++ wr.boundary ++ "\r\n"
  { wr with
    w := wr.w ++ strBytes (delim ++ formFileHeader fieldname filename ++ "\r\n")
    lastpart := true }

/-- Successful `part.Write(d)` on the open part. -/
def Writer.writePart (wr : Writer) (d : Bytes) : Writer := { wr with w := wr.w ++ d }

/-- Successful `writer.Close()`: the closing delimiter is written. -/
def Writer.Close (wr : Writer) : Writer :=
  { wr with w := wr.w ++ strBytes ("\r\n--" ++ wr.boundary ++ "--\r\n"), lastpart := false }

/-- The characters that force `FormDataContentType` to quote the boundary. -/
def tspecials : List Char :=
  ['(', ')', '<', '>', '@', ',', ';', ':', backslash, dquote, '/', '[', ']', '?', '=', ' ']

/-- Body of `writer.FormDataContentType()`. -/
def Writer.FormDataContentType (wr : Writer) : String :=
  let b := if wr.boundary.data.any (fun c => tspecials.contains c)
    then "\"" ++ wr.boundary ++ "\"" else wr.boundary
  "multipart/form-data; boundary=" ++ b

/-- One file part of a multipart/form-data document. -/
structure FormFilePart where
  fieldname : String
  filename : String
  content : Bytes
deriving DecidableEq, Repr

/-- Wire form of one part: delimiter line, header block, empty line, content. -/
def FormFilePart.render (boundary : String) (p : FormFilePart) : Bytes :=
  strBytes ("--" ++ boundary ++ "\r\n" ++ formFileHeader p.fieldname p.filename ++ "\r\n")
    ++ p.content

/-- Wire form of a closed multipart/form-data document with the given parts: the
parts, separated by line breaks, followed by the closing delimiter. -/
def closedFormData (boundary : String) (parts : List FormFilePart) : Bytes :=
  (strBytes "\r\n").intercalate (parts.map (FormFilePart.render boundary))
    ++ strBytes ("\r\n--" ++ boundary ++ "--\r\n")

/-! ## The file handle (source lines 32, 47, 52, 53) -/

/-- What `os.Open` finds at a path: the bytes it delivers and whether it can seek.
A regular file, as an image file is, can seek; a pipe or a terminal cannot. -/
structure FileObject where
  content : Bytes
  seekable : Bool
deriving DecidableEq, Repr

/-- An open `*os.File`: the object behind it and the read offset. -/
structure File where
  content : Bytes
  seekable : Bool
  pos : Nat
deriving DecidableEq, Repr

/-- The handle `os.Open` returns: the offset is at the start. -/
def FileObject.handle (o : FileObject) : File := ⟨o.content, o.seekable, 0⟩

/-- Successful `io.ReadAll(file)`: everything from the offset to the end is returned
and the offset is left at the end. -/
def File.readAll (f : File) : Bytes × File :=
  (f.content.drop f.pos, { f with pos := max f.pos f.content.length })

/-- The call `file.Seek(0, 0)`: on a seekable file the offset is set to the start and
the error is nil; otherwise the offset stays where it is and an error is returned. -/
def File.seekStart (f : File) : File × Option String :=
  if f.seekable then ({ f with pos := 0 }, none) else (f, some "illegal seek")

/-! ## The HTTP request (source lines 65-72) -/

/-- The parts of an `*http.Request` that `main` sets. -/
structure Request where
  method : String
  url : String
  contentType : String
  body : Bytes
deriving DecidableEq, Repr

/-! ## The world and the run -/

/-- Outcome of every external call of one run.  An `Option String` field is the
error the call returns (`none` for a nil error).  The answer of the server is fixed
per world: the request is itself determined by the world. -/
structure World where
  /-- Result of `os.Open`: an error text or the object found at the path. -/
  openFile : String → Except String FileObject
  /-- The thirty bytes `randomBoundary` reads from the random source. -/
  rand : Fin 30 → UInt8
  createFormFileErr : Option String
  readAllErr : Option String
  copyErr : Option String
  closeWriterErr : Option String
  newRequestErr : Option String
  /-- Error of `client.Do`: no response was obtained. -/
  doErr : Option String
  /-- Status code of the response that `client.Do` returns; `main` never reads it. -/
  status : Nat
  readBodyErr : Option String
  /-- The response body as the JSON scanner classifies it. -/
  body : Body

/-- Observable steps of a run, in program order. -/
inductive Effect where
  | osOpen (path : String)
  | createFormFile (fieldname filename : String)
  | readAll
  | seek (offset : Int) (whence : Int)
  | copy
  | writerClose
  | newRequest (method url : String)
  | clientDo (req : Request)
  | readBody
  | unmarshal
  | printf (text : String)
  | fatalf (format : String) (err : GoError)
  | bodyClose
  | fileClose
deriving DecidableEq, Repr

/-- A finished run: its effects and the exit status of the process. -/
structure Run where
  effects : List Effect
  exitCode : Nat
deriving DecidableEq, Repr

/-- A call of `log.Fatalf`: the message is logged and the process exits with status 1
at once; deferred calls do not run. -/
def fatal (done : List Effect) (format : String) (err : GoError) : Run :=
  ⟨done ++ [.fatalf format err], 1⟩

/-- The function `main` (source lines 30-96). -/
def main (w : World) : Run :=
  -- file, err := os.Open(imagePath)
  let t := [Effect.osOpen imagePath]
  match w.openFile imagePath with
  | .error err => fatal t "failed to open image: %v" (.msg err)
  | .ok object =>
  let file := object.handle
  -- body := &bytes.Buffer{}; writer := multipart.NewWriter(body)
  let writer := NewWriter w.rand
  -- part, err := writer.CreateFormFile("image", imagePath)
  let t := t ++ [.createFormFile "image" imagePath]
  match w.createFormFileErr with
  | some err => fatal t "failed to create form file: %v" (.msg err)
  | none =>
  let writer := writer.CreateFormFile "image" imagePath
  -- _, err = io.ReadAll(file)
  let t := t ++ [.readAll]
  match w.readAllErr with
  | some err => fatal t "failed to read image file: %v" (.msg err)
  | none =>
  let file := file.readAll.2
  -- file.Seek(0, 0): both results are dropped
  let t := t ++ [.seek 0 0]
  let file := file.seekStart.1
  -- _, err = io.Copy(part, file)
  let data := file.readAll.1
  let t := t ++ [.copy]
  match w.copyErr with
  | some err => fatal t "failed to copy file content: %v" (.msg err)
  | none =>
  let writer := writer.writePart data
  -- err = writer.Close()
  let t := t ++ [.writerClose]
  match w.closeWriterErr with
  | some err => fatal t "failed to close writer: %v" (.msg err)
  | none =>
  let writer := writer.Close
  -- req, err := http.NewRequest("POST", apiUrl, body)
  let t := t ++ [.newRequest "POST" apiUrl]
  match w.newRequestErr with
  | some err => fatal t "failed to create request: %v" (.msg err)
  | none =>
  -- req.Header.Set("Content-Type", writer.FormDataContentType())
  let req : Request := ⟨"POST", apiUrl, writer.FormDataContentType, writer.w⟩
  -- resp, err := client.Do(req)
  let t := t ++ [.clientDo req]
  match w.doErr with
  | some err => fatal t "failed to perform request: %v" (.msg err)
  | none =>
  -- responseBody, err := io.ReadAll(resp.Body)
  let t := t ++ [.readBody]
  match w.readBodyErr with
  | some err => fatal t "failed to read response body: %v" (.msg err)
  | none =>
  -- err = json.Unmarshal(responseBody, &detectionResponse)
  let t := t ++ [.unmarshal]
  match Unmarshal w.body DetectionResponse.zero with
  | .error err => fatal t "failed to unmarshal response: %v" err
  | .ok detectionResponse =>
  -- for _, prediction := range detectionResponse.Predictions
  let t := t ++ detectionResponse.Predictions.toList.map (fun p => Effect.printf (printfText p))
  -- return: the deferred resp.Body.Close() and file.Close() run, exit status 0
  ⟨t ++ [.bodyClose, .fileClose], 0⟩

/-! ## Observations on a run -/

/-- What the run wrote to standard output, one entry per `Printf` call. -/
def Run.stdout (r : Run) : List String :=
  r.effects.filterMap (fun e => match e with | .printf s => some s | _ => none)

/-- The requests the run handed to `client.Do`. -/
def Run.requests (r : Run) : List Request :=
  r.effects.filterMap (fun e => match e with | .clientDo q => some q | _ => none)

/-- Whether an effect constructs or sends an HTTP request. -/
def Effect.isHttp : Effect → Bool
  | .newRequest _ _ => true
  | .clientDo _ => true
  | _ => false

/-- Whether an effect is a `log.Fatalf` call. -/
def Effect.isFatal : Effect → Bool
  | .fatalf _ _ => true
  | _ => false

/-- Fatal termination: the last effect is a `log.Fatalf` call and the status is not 0. -/
def Run.fatal (r : Run) : Bool :=
  (r.effects.getLast?.map Effect.isFatal).getD false && r.exitCode != 0

/-! ## Which steps of a run succeeded -/

/-- Every step before `client.Do` returned a nil error: the file opened with the
given object behind it, and the form file, the read, the copy, the writer close and the
request construction succeeded.  `file.Seek` is not among the checked steps. -/
structure ReachesSend (w : World) (obj : FileObject) : Prop where
  opened : w.openFile imagePath = .ok obj
  created : w.createFormFileErr = none
  read : w.readAllErr = none
  copied : w.copyErr = none
  closed : w.closeWriterErr = none
  built : w.newRequestErr = none

/-- Every step before `json.Unmarshal` returned a nil error. -/
structure ReachesDecode (w : World) (obj : FileObject) : Prop where
  send : ReachesSend w obj
  sent : w.doErr = none
  bodyRead : w.readBodyErr = none

/-- Every checked step of the run, the JSON decode included, succeeded. -/
def AllStepsOk (w : World) : Prop :=
  ∃ obj resp, ReachesDecode w obj ∧ Unmarshal w.body DetectionResponse.zero = .ok resp

/-- The bytes `io.Copy` finds between the read offset and the end of the file, after
`io.ReadAll` has read the file to its end: the whole file if the rewind took place,
nothing if `file.Seek` failed. -/
def copiedBytes (obj : FileObject) : Bytes :=
  if obj.seekable then obj.content else []

/-- The request a run hands to `client.Do`, spelled out: method, URL, content type
with the boundary, and a closed one-part form-data document as body. -/
def expectedRequest (w : World) (obj : FileObject) : Request :=
  { method := "POST"
    url := "http://localhost:32168/v1/vision/detection"
    contentType := "multipart/form-data; boundary=" ++ randomBoundary w.rand
    body := closedFormData (randomBoundary w.rand)
      [⟨"image", imagePath, copiedBytes obj⟩] }

/-- The effects of a run up to and including `client.Do`, when every step before it
succeeds. -/
def effectsToSend (w : World) (obj : FileObject) : List Effect :=
  [.osOpen imagePath, .createFormFile "image" imagePath, .readAll, .seek 0 0, .copy,
    .writerClose, .newRequest "POST" apiUrl, .clientDo (expectedRequest w obj)]

/-! ## Which JSON values the decoder accepts

The predicates below say, kind by kind, which JSON values can be stored into each Go
target without a type error.  They do not mention the decoder state. -/

/-- A Go `string` accepts a JSON string or `null`. -/
def stringAccepts : JSON → Bool
  | .null => true
  | .str _ => true
  | _ => false

/-- A Go `int` accepts `null` or a number literal without fraction and exponent
whose value fits the type. -/
def intAccepts : JSON → Bool
  | .null => true
  | .num n => (parseInt n).isSome
  | _ => false

/-- A Go `float64` accepts `null` or a number literal in the range of the type. -/
def floatAccepts : JSON → Bool
  | .null => true
  | .num n => (parseFloat n).isSome
  | _ => false

/-- An object member is acceptable to the element struct if it selects no field or
its value is acceptable to the field it selects. -/
def predictionMemberAccepts (kv : String × JSON) : Bool :=
  match findField predictionFields kv.1 with
  | some "label" => stringAccepts kv.2
  | some "confidence" => floatAccepts kv.2
  | some "x_min" => intAccepts kv.2
  | some "y_min" => intAccepts kv.2
  | some "x_max" => intAccepts kv.2
  | some "y_max" => intAccepts kv.2
  | _ => true

/-- The element struct accepts `null` or an object all of whose members are
acceptable; members may be absent, repeated or unknown. -/
def predictionAccepts : JSON → Bool
  | .null => true
  | .obj members => members.all predictionMemberAccepts
  | _ => false

/-- The slice accepts `null` or an array of acceptable elements. -/
def sliceAccepts : JSON → Bool
  | .null => true
  | .arr xs => xs.all predictionAccepts
  | _ => false

/-- An object member is acceptable to `DetectionResponse` if it does not select the
field `predictions` or its value is acceptable to the slice. -/
def responseMemberAccepts (kv : String × JSON) : Bool :=
  match findField responseFields kv.1 with
  | some _ => sliceAccepts kv.2
  | none => true

/-- The struct `DetectionResponse` accepts `null` or an object all of whose members
are acceptable. -/
def responseAccepts : JSON → Bool
  | .null => true
  | .obj members => members.all responseMemberAccepts
  | _ => false


/-! ## Text and bytes, for stating what goes out -/

/-- The bytes of a text of ASCII characters, one byte per character. -/
def asciiBytes (s : String) : Bytes := s.data.map (fun c => c.val.toUInt8)

/-- The lines of a text: the maximal runs of characters other than the line feed,
each ended by a line feed; a last run that no line feed ends counts as a line if
it is not empty.  The first argument is the line read so far. -/
def splitLines : List Char → List Char → List String
  | cur, [] => if cur.isEmpty then [] else [⟨cur⟩]
  | cur, c :: cs => if c = '\n' then ⟨cur⟩ :: splitLines [] cs else splitLines (cur ++ [c]) cs

/-- The text a run wrote to standard output: its writes, one after the other. -/
def Run.stdoutText (r : Run) : List Char := r.stdout.flatMap String.data

/-- The lines of standard output. -/
def Run.stdoutLines (r : Run) : List String := splitLines [] r.stdoutText

/-! ## Concrete worlds, for evaluating the run -/

/-- A non-negative integer literal. -/
def JNumber.ofNat (n : Nat) : JNumber := ⟨false, n, [], none⟩

/-- A regular file of three bytes. -/
def threeBytes : FileObject := ⟨[0xFF, 0xD8, 0xFF], true⟩

/-- A world in which every external call succeeds: a regular three-byte file, a constant
random source, and a server that answers with the given status and body. -/
def World.answering (status : Nat) (body : Body) : World :=
  { openFile := fun _ => .ok threeBytes
    rand := fun _ => 0
    createFormFileErr := none
    readAllErr := none
    copyErr := none
    closeWriterErr := none
    newRequestErr := none
    doErr := none
    status := status
    readBodyErr := none
    body := body }

/-- A body with two predictions: a person with confidence `0.87` in the box
`[10, 20, 110, 220]` and a dog with confidence `0.5` in the box `[5, 6, 7, 8]`. -/
def twoPredictions : JSON :=
  .obj [("predictions", .arr [
    .obj [("label", .str "person"), ("confidence", .num ⟨false, 0, [8, 7], none⟩),
      ("x_min", .num (.ofNat 10)), ("y_min", .num (.ofNat 20)),
      ("x_max", .num (.ofNat 110)), ("y_max", .num (.ofNat 220))],
    .obj [("label", .str "dog"), ("confidence", .num ⟨false, 0, [5], none⟩),
      ("x_min", .num (.ofNat 5)), ("y_min", .num (.ofNat 6)),
      ("x_max", .num (.ofNat 7)), ("y_max", .num (.ofNat 8))]])]

/-- The value `twoPredictions` decodes to. -/
def twoPredictionsDecoded : DetectionResponse :=
  ⟨⟨[⟨"person", ⟨false, 7836263351624663, -53⟩, 10, 20, 110, 220⟩,
     ⟨"dog", ⟨false, 4503599627370496, -53⟩, 5, 6, 7, 8⟩], 2⟩⟩

/-- An error answer of the server: an object without a `predictions` member. -/
def errorObject : JSON :=
  .obj [("success", .bool false), ("error", .str "Unable to process the image")]

/-- A body with one prediction whose label holds a line feed. -/
def labelWithLineFeed : JSON :=
  .obj [("predictions", .arr [.obj [("label", .str "a\nb")]])]

/-- A pipe that delivers three bytes. -/
def threeBytePipe : FileObject := ⟨[0xFF, 0xD8, 0xFF], false⟩

/-- A world in which the image path names a pipe: it opens and reads like a file
with the given bytes, but `file.Seek` fails; every other call succeeds. -/
def World.unseekable : World :=
  { World.answering 200 (.ok twoPredictions) with openFile := fun _ => .ok threeBytePipe }

/-! ## The library models on known values -/

/-- The literal `0.1` parses to the `float64` with bits `0x3FB999999999999A`, the
literal `1e21` to `10^21` exactly, `-0` to the negative zero, and `9007199254740993`
(`2^53 + 1`, a tie) to `2^53`. -/
theorem parseFloat_known_values :
    parseFloat ⟨false, 0, [1], none⟩ = some ⟨false, 0x1999999999999A, -56⟩ ∧
    parseFloat ⟨false, 1, [], some 21⟩ = some ⟨false, 7629394531250000, 17⟩ ∧
    parseFloat ⟨true, 0, [], none⟩ = some ⟨true, 0, 0⟩ ∧
    parseFloat ⟨false, 9007199254740993, [], none⟩ = some ⟨false, 2 ^ 52, 1⟩ := by
  decide

/-- The verb `%.2f` on `0.125` (a tie, to even), `0.375` (a tie, to even), `-2^-10`,
`10^21` and the `float64` nearest to `0.355`. -/
theorem fmtF2_known_values :
    fmtF2 ⟨false, 1, -3⟩ = "0.12" ∧
    fmtF2 ⟨false, 3, -3⟩ = "0.38" ∧
    fmtF2 ⟨true, 1, -10⟩ = "-0.00" ∧
    fmtF2 ⟨false, 7629394531250000, 17⟩ = "1000000000000000000000.00" ∧
    fmtF2 ⟨false, 6395111470866104, -54⟩ = "0.35" := by
  decide

/-- Integer targets reject literals with a fraction or an exponent and values
outside 64 bits. -/
theorem parseInt_known_values :
    parseInt ⟨true, 12, [], none⟩ = some (-12) ∧
    parseInt ⟨false, 1, [0], none⟩ = none ∧
    parseInt ⟨false, 1, [], some 2⟩ = none ∧
    parseInt ⟨false, 2 ^ 63, [], none⟩ = none ∧
    parseInt ⟨true, 2 ^ 63, [], none⟩ = some (-(2 : Int) ^ 63) := by
  decide

/-- Member names select fields up to case, and the long s folds to `s`. -/
theorem findField_known_values :
    findField predictionFields "label" = some "label" ∧
    findField predictionFields "X_Min" = some "x_min" ∧
    findField predictionFields "score" = none ∧
    findField responseFields "PREDICTIONS" = some "predictions" ∧
    findField responseFields (String.mk ("prediction".data ++ [Char.ofNat 0x17F])) =
      some "predictions" := by
  decide

/-- The header block of the one part the program creates. -/
theorem formFileHeader_image :
    formFileHeader "image" imagePath =
      "Content-Disposition: form-data; name=\"image\"; " ++
      "filename=\"..\\\\..\\\\TestData\\\\Objects\\\\study-group.jpg\"\r\n" ++
      "Content-Type: application/octet-stream\r\n" := by
  decide

/-! ## Lemmas on the multipart writer -/

theorem newWriter_eq (rand : Fin 30 → UInt8) :
    NewWriter rand = ⟨[], randomBoundary rand, false⟩ := rfl

theorem createFormFile_first (buf : Bytes) (b fieldname filename : String) :
    Writer.CreateFormFile ⟨buf, b, false⟩ fieldname filename =
      ⟨buf ++ strBytes ("--" ++ b ++ "\r\n" ++ formFileHeader fieldname filename ++ "\r\n"),
        b, true⟩ := by
  simp only [Writer.CreateFormFile, Bool.false_eq_true, if_false]

theorem writePart_eq (buf : Bytes) (b : String) (l : Bool) (d : Bytes) :
    Writer.writePart ⟨buf, b, l⟩ d = ⟨buf ++ d, b, l⟩ := rfl

theorem close_eq (buf : Bytes) (b : String) (l : Bool) :
    Writer.Close ⟨buf, b, l⟩ = ⟨buf ++ strBytes ("\r\n--" ++ b ++ "--\r\n"), b, false⟩ := rfl

theorem closedFormData_single (b : String) (p : FormFilePart) :
    closedFormData b [p] = p.render b ++ strBytes ("\r\n--" ++ b ++ "--\r\n") := by
  simp only [closedFormData, List.map_cons, List.map_nil,
    List.intercalate, List.intersperse, List.flatten, List.append_nil, List.nil_append]

theorem writer_final (rand : Fin 30 → UInt8) (fieldname filename : String) (data : Bytes) :
    (((NewWriter rand).CreateFormFile fieldname filename).writePart data).Close
      = ⟨closedFormData (randomBoundary rand) [⟨fieldname, filename, data⟩],
          randomBoundary rand, false⟩ := by
  rw [newWriter_eq, createFormFile_first, writePart_eq, close_eq, closedFormData_single,
    List.nil_append]
  rfl



theorem digitChar_not_tspecial (n : Nat) (h : n < 16) :
    tspecials.contains (Nat.digitChar n) = false := by
  interval_cases n <;> decide

theorem hexByte_not_tspecial (b : UInt8) : ∀ c ∈ hexByte b, tspecials.contains c = false := by
  intro c hc
  simp only [hexByte, List.mem_cons, List.mem_singleton, List.not_mem_nil, or_false] at hc
  rcases hc with rfl | rfl
  · exact digitChar_not_tspecial _ (Nat.div_lt_of_lt_mul (by have := b.toNat_lt; omega))
  · exact digitChar_not_tspecial _ (Nat.mod_lt _ (by decide))

theorem randomBoundary_plain (rand : Fin 30 → UInt8) :
    (randomBoundary rand).data.any (fun c => tspecials.contains c) = false := by
  simp only [randomBoundary, List.any_eq_false, List.mem_flatMap]
  rintro c ⟨b, _, hc⟩
  simpa using hexByte_not_tspecial b c hc

theorem contentType_eq (rand : Fin 30 → UInt8) (buf : Bytes) (l : Bool) :
    Writer.FormDataContentType ⟨buf, randomBoundary rand, l⟩
      = "multipart/form-data; boundary=" ++ randomBoundary rand := by
  unfold Writer.FormDataContentType
  simp only [randomBoundary_plain, Bool.false_eq_true, if_false]

/-! ### The straight-line part of `main` -/

/-- What `io.Copy` reads after `io.ReadAll` and the unchecked `file.Seek`. -/
theorem copy_source (obj : FileObject) :
    obj.handle.readAll.2.seekStart.1.readAll.1 = copiedBytes obj := by
  cases h : obj.seekable
  · simp only [FileObject.handle, File.readAll, File.seekStart, copiedBytes, h, Nat.zero_max,
      List.drop_length, Bool.false_eq_true, if_false]
  · simp only [FileObject.handle, File.readAll, File.seekStart, copiedBytes, h, List.drop_zero,
      if_true]

/-- The run of a world in which every step before `client.Do` succeeds. -/
theorem main_of_reachesSend (w : World) (obj : FileObject) (h : ReachesSend w obj) :
    main w = (match w.doErr with
      | some err => fatal (effectsToSend w obj) "failed to perform request: %v" (.msg err)
      | none =>
        match w.readBodyErr with
        | some err => fatal (effectsToSend w obj ++ [.readBody])
            "failed to read response body: %v" (.msg err)
        | none =>
          match Unmarshal w.body DetectionResponse.zero with
          | .error err => fatal (effectsToSend w obj ++ [.readBody, .unmarshal])
              "failed to unmarshal response: %v" err
          | .ok resp => ⟨effectsToSend w obj ++ [.readBody, .unmarshal]
              ++ resp.Predictions.toList.map (fun p => Effect.printf (printfText p))
              ++ [.bodyClose, .fileClose], 0⟩) := by
  unfold main
  simp only [h.opened, h.created, h.read, h.copied, h.closed, h.built]
  rw [copy_source, writer_final, contentType_eq]
  have hreq : (⟨"POST", apiUrl, "multipart/form-data; boundary=" ++ randomBoundary w.rand,
      closedFormData (randomBoundary w.rand) [⟨"image", imagePath, copiedBytes obj⟩]⟩ :
      Request) = expectedRequest w obj := rfl
  rw [hreq]
  cases w.doErr with
  | some err => rfl
  | none =>
    cases w.readBodyErr with
    | some err => rfl
    | none =>
      cases Unmarshal w.body DetectionResponse.zero with
      | error err => rfl
      | ok resp => simp only [effectsToSend, List.append_assoc, List.cons_append, List.nil_append]

theorem stdout_fatal (pre : List Effect) (format : String) (err : GoError)
    (h : ∀ e ∈ pre, ∀ s, e ≠ .printf s) : (fatal pre format err).stdout = [] := by
  simp only [fatal, Run.stdout, List.filterMap_append, List.filterMap_cons, List.filterMap_nil,
    List.append_nil, List.filterMap_eq_nil_iff]
  intro e he
  cases e <;> first | rfl | exact absurd rfl (h _ he _)

theorem fatal_fatal (pre : List Effect) (format : String) (err : GoError) :
    (fatal pre format err).fatal = true := by
  simp only [fatal, Run.fatal, List.getLast?_append, List.getLast?_singleton]
  rfl

theorem effectsToSend_no_printf (w : World) (obj : FileObject) :
    ∀ e ∈ effectsToSend w obj, ∀ s, e ≠ .printf s := by
  intro e he s
  simp only [effectsToSend, List.mem_cons, List.mem_singleton, List.not_mem_nil, or_false] at he
  rcases he with rfl | rfl | rfl | rfl | rfl | rfl | rfl | rfl <;> exact Effect.noConfusion

theorem not_allStepsOk_of_not_reachesDecode (w : World)
    (h : ∀ obj, ¬ ReachesDecode w obj) : ¬ AllStepsOk w := by
  rintro ⟨obj, _, hr, _⟩
  exact h obj hr

/-- Shape of a run that stops before the request is handed to `client.Do`. -/
theorem main_before_send (w : World) (h : ∀ obj, ¬ ReachesSend w obj) :
    ∃ pre format err, main w = fatal pre format err ∧
      (∀ e ∈ pre, ∀ s, e ≠ .printf s) ∧ (∀ e ∈ pre, ∀ q, e ≠ .clientDo q) := by
  cases ho : w.openFile imagePath with
  | error err =>
    refine ⟨[.osOpen imagePath], "failed to open image: %v", .msg err, ?_, ?_, ?_⟩
    · unfold main
      simp only [ho]
    all_goals
      intro e he
      simp only [List.mem_singleton] at he
      subst he
      intro _
      exact Effect.noConfusion
  | ok obj =>
    cases h1 : w.createFormFileErr with
    | some err =>
      refine ⟨[.osOpen imagePath, .createFormFile "image" imagePath], "failed to create form file: %v", .msg err, ?_, ?_, ?_⟩
      · unfold main
        simp only [ho, h1]
        rfl
      all_goals
        intro e he
        simp only [List.mem_cons, List.mem_singleton, List.not_mem_nil, or_false] at he
        rcases he with rfl | rfl <;> intro _ <;> exact Effect.noConfusion
    | none =>
      cases h2 : w.readAllErr with
      | some err =>
        refine ⟨[.osOpen imagePath, .createFormFile "image" imagePath, .readAll], "failed to read image file: %v", .msg err,
          ?_, ?_, ?_⟩
        · unfold main
          simp only [ho, h1, h2]
          rfl
        all_goals
          intro e he
          simp only [List.mem_cons, List.mem_singleton, List.not_mem_nil, or_false] at he
          rcases he with rfl | rfl | rfl <;> intro _ <;> exact Effect.noConfusion
      | none =>
        cases h3 : w.copyErr with
        | some err =>
          refine ⟨[.osOpen imagePath, .createFormFile "image" imagePath, .readAll, .seek 0 0,
            .copy], "failed to copy file content: %v", .msg err, ?_, ?_, ?_⟩
          · unfold main
            simp only [ho, h1, h2, h3]
            rfl
          all_goals
            intro e he
            simp only [List.mem_cons, List.mem_singleton, List.not_mem_nil, or_false] at he
            rcases he with rfl | rfl | rfl | rfl | rfl <;> intro _ <;> exact Effect.noConfusion
        | none =>
          cases h4 : w.closeWriterErr with
          | some err =>
            refine ⟨[.osOpen imagePath, .createFormFile "image" imagePath, .readAll, .seek 0 0,
              .copy, .writerClose], "failed to close writer: %v", .msg err, ?_, ?_, ?_⟩
            · unfold main
              simp only [ho, h1, h2, h3, h4]
              rfl
            all_goals
              intro e he
              simp only [List.mem_cons, List.mem_singleton, List.not_mem_nil, or_false] at he
              rcases he with rfl | rfl | rfl | rfl | rfl | rfl <;> intro _ <;>
                exact Effect.noConfusion
          | none =>
            cases h5 : w.newRequestErr with
            | some err =>
              refine ⟨[.osOpen imagePath, .createFormFile "image" imagePath, .readAll,
                .seek 0 0, .copy, .writerClose, .newRequest "POST" apiUrl], "failed to create request: %v", .msg err,
                ?_, ?_, ?_⟩
              · unfold main
                simp only [ho, h1, h2, h3, h4, h5]
                rfl
              all_goals
                intro e he
                simp only [List.mem_cons, List.mem_singleton, List.not_mem_nil, or_false] at he
                rcases he with rfl | rfl | rfl | rfl | rfl | rfl | rfl <;> intro _ <;>
                  exact Effect.noConfusion
            | none => exact absurd ⟨ho, h1, h2, h3, h4, h5⟩ (h obj)

/-! ### The decoder reports an error exactly on unacceptable values -/

theorem saveError_ne_none (s : Saved) (e : TypeError) : saveError s e ≠ none := by
  cases s <;> simp [saveError]

theorem storeString_saved (cur : String) (s : Saved) (v : JSON) :
    (storeString cur s v).2 = none ↔ s = none ∧ stringAccepts v = true := by
  cases v <;> simp [storeString, stringAccepts, saveError_ne_none]

theorem storeInt_saved (cur : Int) (s : Saved) (v : JSON) :
    (storeInt cur s v).2 = none ↔ s = none ∧ intAccepts v = true := by
  cases v with
  | num n => cases h : parseInt n <;> simp [storeInt, intAccepts, saveError_ne_none, h]
  | _ => simp [storeInt, intAccepts, saveError_ne_none]

theorem storeFloat_saved (cur : Float64) (s : Saved) (v : JSON) :
    (storeFloat cur s v).2 = none ↔ s = none ∧ floatAccepts v = true := by
  cases v with
  | num n => cases h : parseFloat n <;> simp [storeFloat, floatAccepts, saveError_ne_none, h]
  | _ => simp [storeFloat, floatAccepts, saveError_ne_none]

theorem storePredictionMember_saved (ps : Prediction × Saved) (kv : String × JSON) :
    (storePredictionMember ps kv).2 = none ↔ ps.2 = none ∧ predictionMemberAccepts kv = true := by
  unfold storePredictionMember predictionMemberAccepts
  split <;> simp [storeString_saved, storeInt_saved, storeFloat_saved]

theorem foldl_saved {α β : Type} (f : α × Saved → β → α × Saved) (acc : β → Bool)
    (hf : ∀ a b, (f a b).2 = none ↔ a.2 = none ∧ acc b = true) (l : List β) (a : α × Saved) :
    (l.foldl f a).2 = none ↔ a.2 = none ∧ l.all acc = true := by
  induction l generalizing a with
  | nil => simp
  | cons b l ih =>
    rw [List.foldl_cons, ih, hf, List.all_cons, Bool.and_eq_true, and_assoc]

theorem storePrediction_saved (cur : Prediction) (s : Saved) (v : JSON) :
    (storePrediction cur s v).2 = none ↔ s = none ∧ predictionAccepts v = true := by
  cases v with
  | obj members =>
    simpa [storePrediction, predictionAccepts] using
      foldl_saved storePredictionMember predictionMemberAccepts storePredictionMember_saved
        members (cur, s)
  | _ => simp [storePrediction, predictionAccepts, saveError_ne_none]

theorem storeElements_saved (old : List Prediction) (xs : List JSON) (i : Nat) (s : Saved) :
    (storeElements old xs i s).2 = none ↔ s = none ∧ xs.all predictionAccepts = true := by
  induction xs generalizing i s with
  | nil => simp [storeElements]
  | cons x xs ih =>
    simp only [storeElements, ih, storePrediction_saved, List.all_cons, Bool.and_eq_true,
      and_assoc]

theorem storeElements_length (old : List Prediction) (xs : List JSON) (i : Nat) (s : Saved) :
    (storeElements old xs i s).1.length = xs.length := by
  induction xs generalizing i s with
  | nil => rfl
  | cons x xs ih => simp only [storeElements, List.length_cons, ih]

theorem storeSlice_saved (cur : Slice) (s : Saved) (v : JSON) :
    (storeSlice cur s v).2 = none ↔ s = none ∧ sliceAccepts v = true := by
  cases v with
  | arr xs =>
    simp only [storeSlice, sliceAccepts]
    split <;> exact storeElements_saved _ _ _ _
  | _ => simp [storeSlice, sliceAccepts, saveError_ne_none]

theorem storeResponseMember_saved (rs : DetectionResponse × Saved) (kv : String × JSON) :
    (storeResponseMember rs kv).2 = none ↔ rs.2 = none ∧ responseMemberAccepts kv = true := by
  unfold storeResponseMember responseMemberAccepts
  split <;> simp [storeSlice_saved]

theorem storeResponse_saved (cur : DetectionResponse) (s : Saved) (v : JSON) :
    (storeResponse cur s v).2 = none ↔ s = none ∧ responseAccepts v = true := by
  cases v with
  | obj members =>
    simpa [storeResponse, responseAccepts] using
      foldl_saved storeResponseMember responseMemberAccepts storeResponseMember_saved
        members (cur, s)
  | _ => simp [storeResponse, responseAccepts, saveError_ne_none]

/-- On a well-formed body, `Unmarshal` succeeds exactly when the value is acceptable. -/
theorem unmarshal_ok_iff (v : JSON) (cur : DetectionResponse) :
    (∃ resp, Unmarshal (.ok v) cur = .ok resp) ↔ responseAccepts v = true := by
  have h := storeResponse_saved cur none v
  simp only [true_and] at h
  unfold Unmarshal
  rw [← h]
  rcases hs : storeResponse cur none v with ⟨r, _ | e⟩ <;> simp [hs]

/-! ### The two shapes of a run -/

theorem main_ok (w : World) (obj : FileObject) (resp : DetectionResponse)
    (h : ReachesDecode w obj) (hd : Unmarshal w.body DetectionResponse.zero = .ok resp) :
    main w = ⟨effectsToSend w obj ++ [.readBody, .unmarshal]
      ++ resp.Predictions.toList.map (fun p => Effect.printf (printfText p))
      ++ [.bodyClose, .fileClose], 0⟩ := by
  rw [main_of_reachesSend w obj h.send]
  simp only [h.sent, h.bodyRead, hd]

theorem main_decode_error (w : World) (obj : FileObject) (err : GoError)
    (h : ReachesDecode w obj) (hd : Unmarshal w.body DetectionResponse.zero = .error err) :
    main w = fatal (effectsToSend w obj ++ [.readBody, .unmarshal])
      "failed to unmarshal response: %v" err := by
  rw [main_of_reachesSend w obj h.send]
  simp only [h.sent, h.bodyRead, hd]

theorem stdout_printfs (pre post : List Effect) (ps : List Prediction)
    (hpre : ∀ e ∈ pre, ∀ s, e ≠ .printf s) (hpost : ∀ e ∈ post, ∀ s, e ≠ .printf s) :
    Run.stdout ⟨pre ++ ps.map (fun p => Effect.printf (printfText p)) ++ post, 0⟩
      = ps.map printfText := by
  have hnil : ∀ l : List Effect, (∀ e ∈ l, ∀ s, e ≠ .printf s) →
      l.filterMap (fun e => match e with | .printf s => some s | _ => none) = [] := by
    intro l hl
    rw [List.filterMap_eq_nil_iff]
    intro e he
    cases e <;> first | rfl | exact absurd rfl (hl _ he _)
  simp only [Run.stdout, List.filterMap_append, hnil pre hpre, hnil post hpost,
    List.nil_append, List.append_nil, List.filterMap_map]
  induction ps with
  | nil => rfl
  | cons p ps ih => simp only [List.filterMap_cons, Function.comp_apply, ih, List.map_cons]

theorem main_ok_stdout (w : World) (obj : FileObject) (resp : DetectionResponse)
    (h : ReachesDecode w obj) (hd : Unmarshal w.body DetectionResponse.zero = .ok resp) :
    (main w).stdout = resp.Predictions.toList.map printfText := by
  rw [main_ok w obj resp h hd]
  apply stdout_printfs
  · intro e he s
    rw [List.mem_append] at he
    rcases he with he | he
    · exact effectsToSend_no_printf w obj e he s
    · simp only [List.mem_cons, List.mem_singleton, List.not_mem_nil, or_false] at he
      rcases he with rfl | rfl <;> exact Effect.noConfusion
  · intro e he s
    simp only [List.mem_cons, List.mem_singleton, List.not_mem_nil, or_false] at he
    rcases he with rfl | rfl <;> exact Effect.noConfusion

theorem main_ok_not_fatal (w : World) (obj : FileObject) (resp : DetectionResponse)
    (h : ReachesDecode w obj) (hd : Unmarshal w.body DetectionResponse.zero = .ok resp) :
    (main w).fatal = false ∧ (main w).exitCode = 0 := by
  rw [main_ok w obj resp h hd]
  refine ⟨?_, rfl⟩
  simp only [Run.fatal, bne_self_eq_false, Bool.and_false]

theorem main_not_ok (w : World) (h : ¬ AllStepsOk w) :
    (main w).fatal = true ∧ (main w).exitCode = 1 ∧ (main w).stdout = [] := by
  by_cases hs : ∃ obj, ReachesSend w obj
  · obtain ⟨obj, hs⟩ := hs
    rw [main_of_reachesSend w obj hs]
    have hpre := effectsToSend_no_printf w obj
    cases hdo : w.doErr with
    | some err => exact ⟨fatal_fatal _ _ _, rfl, stdout_fatal _ _ _ hpre⟩
    | none =>
      have hpre1 : ∀ e ∈ effectsToSend w obj ++ [.readBody], ∀ s, e ≠ .printf s := by
        intro e he s
        rw [List.mem_append, List.mem_singleton] at he
        rcases he with he | rfl
        · exact hpre e he s
        · exact Effect.noConfusion
      have hpre2 : ∀ e ∈ effectsToSend w obj ++ [.readBody, .unmarshal],
          ∀ s, e ≠ .printf s := by
        intro e he s
        simp only [List.mem_append, List.mem_cons, List.mem_singleton, List.not_mem_nil,
          or_false] at he
        rcases he with he | rfl | rfl
        · exact hpre e he s
        · exact Effect.noConfusion
        · exact Effect.noConfusion
      cases hrb : w.readBodyErr with
      | some err => exact ⟨fatal_fatal _ _ _, rfl, stdout_fatal _ _ _ hpre1⟩
      | none =>
        cases hu : Unmarshal w.body DetectionResponse.zero with
        | error err => exact ⟨fatal_fatal _ _ _, rfl, stdout_fatal _ _ _ hpre2⟩
        | ok resp => exact absurd ⟨obj, resp, ⟨hs, hdo, hrb⟩, hu⟩ h
  · obtain ⟨pre, format, err, hm, hp, _⟩ := main_before_send w (fun c hc => hs ⟨c, hc⟩)
    rw [hm]
    exact ⟨fatal_fatal _ _ _, rfl, stdout_fatal _ _ _ hp⟩

theorem main_fatal_iff (w : World) : (main w).fatal = true ↔ ¬ AllStepsOk w := by
  constructor
  · rintro hf ⟨obj, resp, h, hd⟩
    rw [(main_ok_not_fatal w obj resp h hd).1] at hf
    exact Bool.false_ne_true hf
  · exact fun h => (main_not_ok w h).1

/-! ### Rounding to hundredths -/

theorem roundHalfEven_close (num den : Nat) (hden : 0 < den) :
    |(num : ℚ) / den - roundHalfEven num den| ≤ 1 / 2 ∧
    (|(num : ℚ) / den - roundHalfEven num den| = 1 / 2 → roundHalfEven num den % 2 = 0) := by
  have hq := Nat.div_add_mod num den
  have hr := Nat.mod_lt num hden
  have hd : (0 : ℚ) < den := by exact_mod_cast hden
  have hx : (num : ℚ) / den = (num / den : ℕ) + (num % den : ℕ) / (den : ℚ) := by
    field_simp
    have : ((den * (num / den) + num % den : ℕ) : ℚ) = num := by rw [hq]
    push_cast at this
    linarith
  have hfrac0 : (0 : ℚ) ≤ (num % den : ℕ) / (den : ℚ) := by positivity
  unfold roundHalfEven
  simp only []
  split_ifs with h1 h2 h3
  · have hlt : ((num % den : ℕ) : ℚ) / den < 1 / 2 := by
      rw [div_lt_iff₀ hd]
      have : ((2 * (num % den) : ℕ) : ℚ) < den := by exact_mod_cast h1
      push_cast at this
      linarith
    rw [hx]
    constructor
    · rw [abs_le]; constructor <;> linarith
    · intro he
      rw [abs_of_nonneg (by linarith)] at he
      linarith
  · have hgt : 1 / 2 < ((num % den : ℕ) : ℚ) / den := by
      rw [lt_div_iff₀ hd]
      have : ((den : ℕ) : ℚ) < ((2 * (num % den) : ℕ) : ℚ) := by exact_mod_cast h2
      push_cast at this
      linarith
    have hlt1 : ((num % den : ℕ) : ℚ) / den < 1 := by
      rw [div_lt_one hd]
      exact_mod_cast hr
    rw [hx]
    push_cast
    constructor
    · rw [abs_le]; constructor <;> linarith
    · intro he
      rw [abs_of_nonpos (by linarith)] at he
      linarith
  · have heq : ((num % den : ℕ) : ℚ) / den = 1 / 2 := by
      rw [div_eq_iff hd.ne']
      have : 2 * (num % den) = den := by omega
      have : ((2 * (num % den) : ℕ) : ℚ) = den := by exact_mod_cast this
      push_cast at this
      linarith
    rw [hx, heq]
    constructor
    · rw [abs_le]; constructor <;> linarith
    · intro _; exact h3
  · have heq : ((num % den : ℕ) : ℚ) / den = 1 / 2 := by
      rw [div_eq_iff hd.ne']
      have : 2 * (num % den) = den := by omega
      have : ((2 * (num % den) : ℕ) : ℚ) = den := by exact_mod_cast this
      push_cast at this
      linarith
    rw [hx, heq]
    push_cast
    constructor
    · rw [abs_le]; constructor <;> linarith
    · intro _; omega

theorem hundredths_close (f : Float64) :
    |f.abs * 100 - f.hundredths| ≤ 1 / 2 ∧
    (|f.abs * 100 - f.hundredths| = 1 / 2 → f.hundredths % 2 = 0) := by
  unfold Float64.abs Float64.hundredths
  split_ifs with h
  · obtain ⟨k, hk⟩ := Int.eq_ofNat_of_zero_le h
    rw [hk]
    simp only [zpow_natCast, Int.toNat_ofNat]
    push_cast
    have : (f.mant : ℚ) * 2 ^ k * 100 - f.mant * 2 ^ k * 100 = 0 := by ring
    rw [this]
    norm_num
  · have hneg : f.exp = - (((-f.exp).toNat : ℕ) : ℤ) := by
      rw [Int.toNat_of_nonneg (by omega)]; ring
    have hpos : 0 < 2 ^ (-f.exp).toNat := Nat.pow_pos (by norm_num)
    have key : (f.mant : ℚ) * 2 ^ f.exp * 100
        = ((f.mant * 100 : ℕ) : ℚ) / ((2 ^ (-f.exp).toNat : ℕ) : ℚ) := by
      conv_lhs => rw [hneg]
      rw [zpow_neg, zpow_natCast]
      push_cast
      field_simp
    rw [key]
    exact roundHalfEven_close _ _ hpos


/-! ### The request of a run -/

theorem requests_of_reachesSend (w : World) (obj : FileObject) (h : ReachesSend w obj) :
    (main w).requests = [expectedRequest w obj] := by
  have hreq : ∀ r : Run, (∃ post, r.effects = effectsToSend w obj ++ post ∧
      ∀ e ∈ post, ∀ q, e ≠ .clientDo q) → r.requests = [expectedRequest w obj] := by
    rintro r ⟨post, hr, hpost⟩
    have hnil : post.filterMap (fun e => match e with | .clientDo q => some q | _ => none)
        = [] := by
      rw [List.filterMap_eq_nil_iff]
      intro e he
      cases e <;> first | rfl | exact absurd rfl (hpost _ he _)
    simp only [Run.requests, hr, List.filterMap_append, hnil, List.append_nil]
    rfl
  apply hreq
  rw [main_of_reachesSend w obj h]
  cases w.doErr with
  | some err =>
    refine ⟨[.fatalf _ _], rfl, ?_⟩
    intro e he q
    rw [List.mem_singleton] at he
    subst he
    exact Effect.noConfusion
  | none =>
    cases w.readBodyErr with
    | some err =>
      refine ⟨[.readBody, .fatalf _ _], by simp only [fatal, List.append_assoc]; rfl, ?_⟩
      intro e he q
      simp only [List.mem_cons, List.mem_singleton, List.not_mem_nil, or_false] at he
      rcases he with rfl | rfl <;> exact Effect.noConfusion
    | none =>
      cases Unmarshal w.body DetectionResponse.zero with
      | error err =>
        refine ⟨[.readBody, .unmarshal, .fatalf _ _],
          by simp only [fatal, List.append_assoc]; rfl, ?_⟩
        intro e he q
        simp only [List.mem_cons, List.mem_singleton, List.not_mem_nil, or_false] at he
        rcases he with rfl | rfl | rfl <;> exact Effect.noConfusion
      | ok resp =>
        refine ⟨[.readBody, .unmarshal]
          ++ resp.Predictions.toList.map (fun p => Effect.printf (printfText p))
          ++ [.bodyClose, .fileClose], by simp only [List.append_assoc], ?_⟩
        intro e he q
        simp only [List.mem_append, List.mem_cons, List.mem_singleton, List.not_mem_nil,
          or_false, List.mem_map] at he
        rcases he with ((rfl | rfl) | ⟨p, _, rfl⟩) | rfl | rfl <;> exact Effect.noConfusion

/-- A run that stops before `client.Do` hands no request to the network. -/
theorem requests_nil_of_not_reachesSend (w : World) (h : ∀ obj, ¬ ReachesSend w obj) :
    (main w).requests = [] := by
  obtain ⟨pre, format, err, hm, _, hq⟩ := main_before_send w h
  rw [hm]
  simp only [fatal, Run.requests, List.filterMap_append, List.filterMap_cons,
    List.filterMap_nil, List.append_nil, List.filterMap_eq_nil_iff]
  intro e he
  cases e <;> first | rfl | exact absurd rfl (hq _ he _)

/-- A run hands a request to `client.Do` exactly when every step before it succeeds. -/
theorem requests_ne_nil_iff (w : World) :
    (main w).requests ≠ [] ↔ ∃ obj, ReachesSend w obj := by
  constructor
  · intro hne
    by_contra hno
    exact hne (requests_nil_of_not_reachesSend w (fun obj ho => hno ⟨obj, ho⟩))
  · rintro ⟨obj, ho⟩
    rw [requests_of_reachesSend w obj ho]
    exact List.cons_ne_nil _ _

/-! ## Wire bytes, slice length and lines of text -/

theorem utf8EncodeChar_ascii (c : Char) (h : c.val ≤ 0x7f) :
    String.utf8EncodeChar c = [c.val.toUInt8] := by
  simp only [String.utf8EncodeChar, h, if_true]

theorem strBytes_ascii (s : String) (h : ∀ c ∈ s.data, c.val ≤ 0x7f) :
    strBytes s = asciiBytes s := by
  have key : ∀ l : List Char, (∀ c ∈ l, c.val ≤ 0x7f) →
      l.flatMap String.utf8EncodeChar = l.map (fun c => c.val.toUInt8) := by
    intro l
    induction l with
    | nil => intro _; rfl
    | cons c cs ih =>
      intro hl
      rw [List.flatMap_cons, List.map_cons,
        utf8EncodeChar_ascii c (hl c (List.mem_cons_self _ _)),
        ih (fun d hd => hl d (List.mem_cons_of_mem _ hd))]
      rfl
  exact key s.data h

theorem asciiBytes_append (a b : String) : asciiBytes (a ++ b) = asciiBytes a ++ asciiBytes b := by
  simp only [asciiBytes, String.data_append, List.map_append]

theorem strBytes_append (a b : String) : strBytes (a ++ b) = strBytes a ++ strBytes b := by
  simp only [strBytes, String.data_append, List.flatMap_append]

theorem digitChar_ascii (n : Nat) (h : n < 16) : (Nat.digitChar n).val ≤ 0x7f := by
  interval_cases n <;> decide

theorem digitChar_hex (n : Nat) (h : n < 16) : Nat.digitChar n ∈ "0123456789abcdef".data := by
  interval_cases n <;> decide

theorem hexByte_digits (b : UInt8) : ∀ c ∈ hexByte b, ∃ n, n < 16 ∧ c = Nat.digitChar n := by
  intro c hc
  simp only [hexByte, List.mem_cons, List.mem_singleton, List.not_mem_nil, or_false] at hc
  rcases hc with rfl | rfl
  · exact ⟨_, Nat.div_lt_of_lt_mul (by have := b.toNat_lt; omega), rfl⟩
  · exact ⟨_, Nat.mod_lt _ (by decide), rfl⟩

theorem randomBoundary_digits (rand : Fin 30 → UInt8) :
    ∀ c ∈ (randomBoundary rand).data, ∃ n, n < 16 ∧ c = Nat.digitChar n := by
  intro c hc
  simp only [randomBoundary, List.mem_flatMap] at hc
  obtain ⟨b, _, hb⟩ := hc
  exact hexByte_digits b c hb

theorem randomBoundary_length (rand : Fin 30 → UInt8) :
    (randomBoundary rand).data.length = 60 := by
  have h : ∀ l : List UInt8, (l.flatMap hexByte).length = 2 * l.length := by
    intro l
    induction l with
    | nil => rfl
    | cons b l ih =>
      rw [List.flatMap_cons, List.length_append, ih, List.length_cons]
      simp only [hexByte, List.length_cons, List.length_nil]
      omega
  simp only [randomBoundary, h, List.length_ofFn]



theorem randomBoundary_ascii (rand : Fin 30 → UInt8) :
    ∀ c ∈ (randomBoundary rand).data, c.val ≤ 0x7f := by
  intro c hc
  obtain ⟨n, hn, rfl⟩ := randomBoundary_digits rand c hc
  exact digitChar_ascii n hn

theorem ascii_append (a b : String) (ha : ∀ c ∈ a.data, c.val ≤ 0x7f)
    (hb : ∀ c ∈ b.data, c.val ≤ 0x7f) : ∀ c ∈ (a ++ b).data, c.val ≤ 0x7f := by
  intro c hc
  rw [String.data_append, List.mem_append] at hc
  rcases hc with hc | hc
  · exact ha c hc
  · exact hb c hc

set_option maxRecDepth 8000 in
theorem imageHeader_ascii :
    ∀ c ∈ ("Content-Disposition: form-data; name=\"image\"; " ++
      "filename=\"..\\\\..\\\\TestData\\\\Objects\\\\study-group.jpg\"\r\n" ++
      "Content-Type: application/octet-stream\r\n").data, c.val ≤ 0x7f := by
  decide

/-- The body of the request, byte for byte: the delimiter line, the header block of
the part, an empty line, the content, and the closing delimiter. -/
theorem closedFormData_image_bytes (rand : Fin 30 → UInt8) (data : Bytes) :
    closedFormData (randomBoundary rand) [⟨"image", imagePath, data⟩] =
      asciiBytes ("--" ++ randomBoundary rand ++ "\r\n" ++ ("Content-Disposition: form-data; name=\"image\"; " ++
      "filename=\"..\\\\..\\\\TestData\\\\Objects\\\\study-group.jpg\"\r\n" ++
      "Content-Type: application/octet-stream\r\n") ++ "\r\n")
        ++ data ++ asciiBytes ("\r\n--" ++ randomBoundary rand ++ "--\r\n") := by
  have hb := randomBoundary_ascii rand
  have h1 := ascii_append _ _ (ascii_append _ _ (ascii_append _ _ (ascii_append _ _
    (by decide : ∀ c ∈ "--".data, c.val ≤ 0x7f) hb)
    (by decide : ∀ c ∈ "\r\n".data, c.val ≤ 0x7f)) imageHeader_ascii)
    (by decide : ∀ c ∈ "\r\n".data, c.val ≤ 0x7f)
  have h2 := ascii_append _ _ (ascii_append _ _
    (by decide : ∀ c ∈ "\r\n--".data, c.val ≤ 0x7f) hb)
    (by decide : ∀ c ∈ "--\r\n".data, c.val ≤ 0x7f)
  rw [closedFormData_single, FormFilePart.render, formFileHeader_image,
    strBytes_ascii _ h1, strBytes_ascii _ h2]

/-! ### The slice length -/

theorem storeSlice_len_le (cur : Slice) (s : Saved) (v : JSON)
    (h : cur.len ≤ cur.backing.length) :
    (storeSlice cur s v).1.len ≤ (storeSlice cur s v).1.backing.length := by
  cases v with
  | arr xs =>
    simp only [storeSlice]
    split
    · exact Nat.le_refl _
    · simp only [List.length_append, storeElements_length]
      exact Nat.le_add_right _ _
  | null => exact Nat.le_refl _
  | _ => exact h

theorem storeResponseMember_len_le (rs : DetectionResponse × Saved) (kv : String × JSON)
    (h : rs.1.Predictions.len ≤ rs.1.Predictions.backing.length) :
    (storeResponseMember rs kv).1.Predictions.len
      ≤ (storeResponseMember rs kv).1.Predictions.backing.length := by
  unfold storeResponseMember
  split
  · exact storeSlice_len_le _ _ _ h
  · exact h

theorem foldl_storeResponseMember_len_le (members : List (String × JSON))
    (rs : DetectionResponse × Saved)
    (h : rs.1.Predictions.len ≤ rs.1.Predictions.backing.length) :
    (members.foldl storeResponseMember rs).1.Predictions.len
      ≤ (members.foldl storeResponseMember rs).1.Predictions.backing.length := by
  induction members generalizing rs with
  | nil => exact h
  | cons kv members ih => exact ih _ (storeResponseMember_len_le rs kv h)

theorem storeResponse_len_le (cur : DetectionResponse) (s : Saved) (v : JSON)
    (h : cur.Predictions.len ≤ cur.Predictions.backing.length) :
    (storeResponse cur s v).1.Predictions.len
      ≤ (storeResponse cur s v).1.Predictions.backing.length := by
  cases v with
  | obj members => exact foldl_storeResponseMember_len_le members (cur, s) h
  | _ => exact h

/-- The length of a decoded slice never exceeds its backing array. -/
theorem unmarshal_len_le (body : Body) (resp : DetectionResponse)
    (hd : Unmarshal body DetectionResponse.zero = .ok resp) :
    resp.Predictions.len ≤ resp.Predictions.backing.length := by
  cases body with
  | error text => exact Except.noConfusion hd
  | ok v =>
    have h := storeResponse_len_le DetectionResponse.zero none v (Nat.le_refl _)
    rcases hs : storeResponse DetectionResponse.zero none v with ⟨r, _ | e⟩
    · simp only [Unmarshal, hs, Except.ok.injEq] at hd
      rw [hs] at h
      rw [← hd]
      exact h
    · simp only [Unmarshal, hs] at hd
      exact Except.noConfusion hd

/-! ### Lines of text -/

theorem digitChar_ne_lf (n : Nat) (h : n < 10) : Nat.digitChar n ≠ '\n' := by
  interval_cases n <;> decide

theorem toDigitsCore_no_lf (fuel n : Nat) (ds : List Char) (h : '\n' ∉ ds) :
    '\n' ∉ Nat.toDigitsCore 10 fuel n ds := by
  induction fuel generalizing n ds with
  | zero => exact h
  | succ fuel ih =>
    have hd : '\n' ∉ Nat.digitChar (n % 10) :: ds := by
      rw [List.mem_cons, not_or]
      exact ⟨(digitChar_ne_lf _ (Nat.mod_lt _ (by decide))).symm, h⟩
    unfold Nat.toDigitsCore
    simp only []
    split
    · exact hd
    · exact ih _ _ hd

theorem repr_no_lf (n : Nat) : '\n' ∉ (Nat.repr n).data := by
  exact toDigitsCore_no_lf _ _ _ (List.not_mem_nil _)

theorem fmtD_no_lf (i : Int) : '\n' ∉ (fmtD i).data := by
  unfold fmtD
  split
  · simp only [String.data_append, List.mem_append, not_or]
    exact ⟨by decide, repr_no_lf _⟩
  · exact repr_no_lf _

theorem fmtF2_no_lf (f : Float64) : '\n' ∉ (fmtF2 f).data := by
  unfold fmtF2
  simp only [String.data_append, List.mem_append, not_or, List.mem_cons, List.not_mem_nil,
    or_false]
  refine ⟨⟨⟨?_, repr_no_lf _⟩, by decide⟩, ?_, ?_⟩
  · split <;> decide
  · exact (digitChar_ne_lf _ (by omega)).symm
  · exact (digitChar_ne_lf _ (by omega)).symm

theorem formatLine_no_lf (p : Prediction) (h : '\n' ∉ p.Label.data) :
    '\n' ∉ (formatLine p).data := by
  unfold formatLine
  simp only [String.data_append, List.mem_append, not_or]
  exact ⟨⟨⟨⟨⟨⟨⟨⟨⟨⟨⟨⟨by decide, h⟩, by decide⟩, fmtF2_no_lf _⟩, by decide⟩, fmtD_no_lf _⟩,
    by decide⟩, fmtD_no_lf _⟩, by decide⟩, fmtD_no_lf _⟩, by decide⟩, fmtD_no_lf _⟩, by decide⟩

theorem splitLines_line (line : List Char) (h : '\n' ∉ line) (cur rest : List Char) :
    splitLines cur (line ++ '\n' :: rest) = ⟨cur ++ line⟩ :: splitLines [] rest := by
  induction line generalizing cur with
  | nil => simp only [List.nil_append, splitLines, if_true, List.append_nil]
  | cons c line ih =>
    rw [List.mem_cons, not_or] at h
    have hc : c ≠ '\n' := fun e => h.1 e.symm
    rw [List.cons_append, splitLines, if_neg hc, ih h.2, List.append_assoc]
    rfl

theorem splitLines_records (ps : List Prediction)
    (h : ∀ p ∈ ps, '\n' ∉ p.Label.data) :
    splitLines [] ((ps.map printfText).flatMap String.data) = ps.map formatLine := by
  induction ps with
  | nil => rfl
  | cons p ps ih =>
    have hp := formatLine_no_lf p (h p (List.mem_cons_self _ _))
    have hdata : (printfText p).data = (formatLine p).data ++ ['\n'] := by
      simp only [printfText, String.data_append]
    rw [List.map_cons, List.flatMap_cons, hdata, List.append_assoc, List.singleton_append,
      splitLines_line _ hp, ih (fun q hq => h q (List.mem_cons_of_mem _ hq)), List.map_cons,
      List.nil_append]

/-! ## The claims -/

/-- C1, the counterexample: the body decodes to one prediction, whose label holds
a line feed; the run makes one write, and standard output holds two lines, neither
of which is the line the claim describes. -/
theorem label_line_feed_two_lines :
    Unmarshal (.ok labelWithLineFeed) DetectionResponse.zero =
      .ok ⟨⟨[⟨"a\nb", ⟨false, 0, 0⟩, 0, 0, 0, 0⟩], 1⟩⟩ ∧
    (main (World.answering 200 (.ok labelWithLineFeed))).exitCode = 0 ∧
    (main (World.answering 200 (.ok labelWithLineFeed))).stdout.length = 1 ∧
    (main (World.answering 200 (.ok labelWithLineFeed))).stdoutLines =
      ["Object: a", "b, Confidence: 0.00, Bounding Box: [0, 0, 0, 0]"] := by
  exact ⟨rfl, by decide⟩

/-- C1, amended: when every step before the decode succeeds and the body decodes to
the predictions `p[0..n-1]` (the first `len` slots of the decoded slice), the run
makes exactly `n` writes to standard output, write `i` being `Object: <label>,
Confidence: <score, 2 decimals>, Bounding Box: [<x_min>, <y_min>, <x_max>, <y_max>]`
built from `p[i]` and followed by a line feed, in response order, none added,
dropped or reordered; and if no label holds a line feed, standard output consists
of exactly `n` lines, line `i` being that text. -/
theorem prints_one_record_per_prediction (w : World) (obj : FileObject)
    (resp : DetectionResponse) (h : ReachesDecode w obj)
    (hd : Unmarshal w.body DetectionResponse.zero = .ok resp) :
    (main w).stdout.length = resp.Predictions.len ∧
    (main w).stdout = (resp.Predictions.backing.take resp.Predictions.len).map
      (fun p => "Object: " ++ p.Label ++ ", Confidence: " ++ fmtF2 p.Score
        ++ ", Bounding Box: [" ++ fmtD p.XMin ++ ", " ++ fmtD p.YMin ++ ", " ++ fmtD p.XMax
        ++ ", " ++ fmtD p.YMax ++ "]" ++ "\n") ∧
    (main w).exitCode = 0 ∧
    ((∀ p ∈ resp.Predictions.backing.take resp.Predictions.len, '\n' ∉ p.Label.data) →
      (main w).stdoutLines.length = resp.Predictions.len ∧
      (main w).stdoutLines = (resp.Predictions.backing.take resp.Predictions.len).map
        (fun p => "Object: " ++ p.Label ++ ", Confidence: " ++ fmtF2 p.Score
          ++ ", Bounding Box: [" ++ fmtD p.XMin ++ ", " ++ fmtD p.YMin ++ ", " ++ fmtD p.XMax
          ++ ", " ++ fmtD p.YMax ++ "]")) := by
  have hlen : (resp.Predictions.backing.take resp.Predictions.len).length
      = resp.Predictions.len := by
    rw [List.length_take]
    exact Nat.min_eq_left (unmarshal_len_le w.body resp hd)
  have hout : (main w).stdout
      = (resp.Predictions.backing.take resp.Predictions.len).map printfText :=
    main_ok_stdout w obj resp h hd
  refine ⟨?_, hout, (main_ok_not_fatal w obj resp h hd).2, ?_⟩
  · rw [hout, List.length_map, hlen]
  · intro hno
    have hlines : (main w).stdoutLines
        = (resp.Predictions.backing.take resp.Predictions.len).map formatLine := by
      unfold Run.stdoutLines Run.stdoutText
      rw [hout]
      exact splitLines_records _ hno
    refine ⟨?_, hlines⟩
    rw [hlines, List.length_map, hlen]

/-- Witness for C1, amended: the two-prediction body yields its two lines in order. -/
theorem prints_one_record_per_prediction_witness :
    ReachesDecode (World.answering 200 (.ok twoPredictions)) threeBytes ∧
    (main (World.answering 200 (.ok twoPredictions))).stdout.length = 2 ∧
    (main (World.answering 200 (.ok twoPredictions))).stdoutLines =
      ["Object: person, Confidence: 0.87, Bounding Box: [10, 20, 110, 220]",
       "Object: dog, Confidence: 0.50, Bounding Box: [5, 6, 7, 8]"] :=
  have h : ReachesDecode (World.answering 200 (.ok twoPredictions)) threeBytes :=
    ⟨⟨rfl, rfl, rfl, rfl, rfl, rfl⟩, rfl, rfl⟩
  have t := prints_one_record_per_prediction (World.answering 200 (.ok twoPredictions))
    threeBytes twoPredictionsDecoded h rfl
  ⟨h, t.1, (t.2.2.2 (by decide)).2.trans (by decide)⟩

/-- C2, the counterexample: a response with status 500 whose body is a well-formed
JSON object is not fatal; the run prints the predictions in it and exits with 0. -/
theorem status_500_not_fatal :
    ¬ (200 ≤ (World.answering 500 (.ok twoPredictions)).status ∧
        (World.answering 500 (.ok twoPredictions)).status < 300) ∧
    (main (World.answering 500 (.ok twoPredictions))).fatal = false ∧
    (main (World.answering 500 (.ok twoPredictions))).exitCode = 0 ∧
    (main (World.answering 500 (.ok twoPredictions))).stdout =
      ["Object: person, Confidence: 0.87, Bounding Box: [10, 20, 110, 220]\n",
       "Object: dog, Confidence: 0.50, Bounding Box: [5, 6, 7, 8]\n"] ∧
    (main (World.answering 500 (.ok errorObject))).fatal = false ∧
    (main (World.answering 500 (.ok errorObject))).exitCode = 0 := by
  decide

/-- C2, amended: for every response the program receives, whatever its status
code, if the body is not well-formed JSON the run ends in fatal termination (a
logged error, exit status 1) after the network call (its last effects are the send,
the body read, the decode and the `log.Fatalf`) and prints no prediction line. -/
theorem malformed_body_fatal (w : World) (obj : FileObject) (text : String)
    (h : ReachesDecode w obj) (hb : w.body = .error text) :
    (main w).fatal = true ∧ (main w).exitCode = 1 ∧ (main w).stdout = [] ∧
    (∃ pre req, (main w).effects = pre ++ [.clientDo req, .readBody, .unmarshal,
      .fatalf "failed to unmarshal response: %v" (.invalidJSON text)]) := by
  have hu : Unmarshal w.body DetectionResponse.zero = .error (.invalidJSON text) := by
    rw [hb]; rfl
  have hn : ¬ AllStepsOk w := by
    rintro ⟨c, resp, _, hd⟩
    rw [hu] at hd
    exact Except.noConfusion hd
  obtain ⟨h1, h2, h3⟩ := main_not_ok w hn
  refine ⟨h1, h2, h3, ?_⟩
  rw [main_decode_error w obj _ h hu]
  exact ⟨[.osOpen imagePath, .createFormFile "image" imagePath, .readAll, .seek 0 0, .copy,
    .writerClose, .newRequest "POST" apiUrl], expectedRequest w obj, rfl⟩

/-- Witness for C2, amended: a response with status 502 whose body is not JSON. -/
theorem malformed_body_fatal_witness :
    ReachesDecode (World.answering 502 (.error "invalid character")) threeBytes ∧
    (main (World.answering 502 (.error "invalid character"))).fatal = true ∧
    (main (World.answering 502 (.error "invalid character"))).stdout = [] :=
  have h : ReachesDecode (World.answering 502 (.error "invalid character"))
      threeBytes := ⟨⟨rfl, rfl, rfl, rfl, rfl, rfl⟩, rfl, rfl⟩
  have t := malformed_body_fatal (World.answering 502 (.error "invalid character"))
    threeBytes "invalid character" h rfl
  ⟨h, t.1, t.2.2.1⟩

/-- C3: if opening the image fails, the run is the open followed by `log.Fatalf`:
it ends fatally at that step, and no request is constructed or sent. -/
theorem open_failure_before_network (w : World) (err : String)
    (h : w.openFile imagePath = .error err) :
    main w = ⟨[.osOpen imagePath, .fatalf "failed to open image: %v" (.msg err)], 1⟩ ∧
    (main w).fatal = true ∧ (main w).requests = [] ∧
    ∀ e ∈ (main w).effects, e.isHttp = false := by
  have hm : main w = ⟨[.osOpen imagePath, .fatalf "failed to open image: %v" (.msg err)], 1⟩ := by
    unfold main
    simp only [h]
    rfl
  rw [hm]
  refine ⟨rfl, rfl, rfl, ?_⟩
  intro e he
  simp only [List.mem_cons, List.mem_singleton, List.not_mem_nil, or_false] at he
  rcases he with rfl | rfl <;> rfl

/-- Witness for C3: the image file does not exist. -/
theorem open_failure_before_network_witness :
    (main { World.answering 200 (.ok twoPredictions) with
      openFile := fun _ => .error "no such file or directory" }).requests = [] :=
  (open_failure_before_network { World.answering 200 (.ok twoPredictions) with
    openFile := fun _ => .error "no such file or directory" } "no such file or directory"
    rfl).2.2.1

/-- C4: a run that reaches the network call issues exactly one request: a POST to
`http://localhost:32168/v1/vision/detection`; its Content-Type is
`multipart/form-data; boundary=` followed by the boundary, sixty hexadecimal digits;
its body is, byte for byte, the delimiter line with that boundary, the header block
of a file part with field name `image`, an empty line, the content of the part and
the closing delimiter with the same boundary: a closed document with one part. -/
theorem request_is_one_part_post (w : World) (obj : FileObject) (h : ReachesSend w obj) :
    (main w).requests =
      [{ method := "POST"
         url := "http://localhost:32168/v1/vision/detection"
         contentType := "multipart/form-data; boundary=" ++ randomBoundary w.rand
         body := asciiBytes ("--" ++ randomBoundary w.rand ++ "\r\n" ++
             ("Content-Disposition: form-data; name=\"image\"; " ++
           "filename=\"..\\\\..\\\\TestData\\\\Objects\\\\study-group.jpg\"\r\n" ++
           "Content-Type: application/octet-stream\r\n") ++ "\r\n")
           ++ (if obj.seekable then obj.content else [])
           ++ asciiBytes ("\r\n--" ++ randomBoundary w.rand ++ "--\r\n") }] ∧
    (randomBoundary w.rand).data.length = 60 ∧
    (∀ c ∈ (randomBoundary w.rand).data, c ∈ "0123456789abcdef".data) ∧
    (main w).requests.map Request.body = [closedFormData (randomBoundary w.rand)
      [⟨"image", imagePath, if obj.seekable then obj.content else []⟩]] := by
  have hr := requests_of_reachesSend w obj h
  refine ⟨?_, randomBoundary_length w.rand, ?_, ?_⟩
  · rw [hr, expectedRequest, closedFormData_image_bytes, copiedBytes]
  · intro c hc
    obtain ⟨n, hn, rfl⟩ := randomBoundary_digits w.rand c hc
    exact digitChar_hex n hn
  · rw [hr, expectedRequest, copiedBytes]
    rfl

set_option maxRecDepth 8000 in
/-- Witness for C4: the request of a run in which every call succeeds, with the
random source delivering zero bytes and a file of the three bytes `FF D8 FF`. -/
theorem request_is_one_part_post_witness :
    ReachesSend (World.answering 200 (.ok twoPredictions)) threeBytes ∧
    (main (World.answering 200 (.ok twoPredictions))).requests =
      [{ method := "POST"
         url := "http://localhost:32168/v1/vision/detection"
         contentType := "multipart/form-data; boundary=" ++
           "000000000000000000000000000000000000000000000000000000000000"
         body := asciiBytes ("--" ++
             "000000000000000000000000000000000000000000000000000000000000" ++ "\r\n" ++
             ("Content-Disposition: form-data; name=\"image\"; " ++
           "filename=\"..\\\\..\\\\TestData\\\\Objects\\\\study-group.jpg\"\r\n" ++
           "Content-Type: application/octet-stream\r\n") ++ "\r\n")
           ++ [0xFF, 0xD8, 0xFF]
           ++ asciiBytes ("\r\n--" ++
             "000000000000000000000000000000000000000000000000000000000000" ++ "--\r\n") }] :=
  have h : ReachesSend (World.answering 200 (.ok twoPredictions)) threeBytes :=
    ⟨rfl, rfl, rfl, rfl, rfl, rfl⟩
  ⟨h, (request_is_one_part_post (World.answering 200 (.ok twoPredictions)) threeBytes h).1.trans
    (by decide)⟩

/-- C5: no partial output.  A run that ends in fatal termination, or in which any
one of the checked steps (file open, form-file creation, file read, file copy,
writer close, request construction, request send, response-body read, JSON decode)
failed, has written no prediction line. -/
theorem fatal_run_prints_nothing (w : World) (h : (main w).fatal = true ∨ ¬ AllStepsOk w) :
    (main w).stdout = [] := by
  rcases h with h | h
  · exact (main_not_ok w ((main_fatal_iff w).1 h)).2.2
  · exact (main_not_ok w h).2.2

/-- Witness for C5: the server cannot be reached although the body it would have
sent holds two predictions. -/
theorem fatal_run_prints_nothing_witness :
    (main { World.answering 200 (.ok twoPredictions) with
      doErr := some "connection refused" }).fatal = true ∧
    (main { World.answering 200 (.ok twoPredictions) with
      doErr := some "connection refused" }).stdout = [] :=
  ⟨by decide, fatal_run_prints_nothing { World.answering 200 (.ok twoPredictions) with
    doErr := some "connection refused" } (Or.inl (by decide))⟩

/-- C6, evaluated where it fails: when `file.Seek(0, 0)` returns an error and every
other call succeeds, the run logs nothing, goes on through all later steps, prints
the predictions and exits with status 0. -/
theorem seek_failure_not_fatal :
    World.unseekable.openFile imagePath = .ok threeBytePipe ∧
    threeBytePipe.handle.readAll.2.seekStart.2 = some "illegal seek" ∧
    (main World.unseekable).fatal = false ∧
    (main World.unseekable).exitCode = 0 ∧
    (main World.unseekable).effects.all (fun e => !e.isFatal) = true ∧
    (main World.unseekable).stdout =
      ["Object: person, Confidence: 0.87, Bounding Box: [10, 20, 110, 220]\n",
       "Object: dog, Confidence: 0.50, Bounding Box: [5, 6, 7, 8]\n"] := by
  exact ⟨rfl, by decide⟩

/-- C7, the counterexample: a body without a `predictions` member, a body whose
`predictions` is `null`, and a body whose one element has only a `label` are all
decoded without error; the runs exit with status 0, and the last one prints a line
built from zero values. -/
theorem lenient_decode_not_fatal :
    (main (World.answering 200 (.ok (.obj [])))).fatal = false ∧
    (main (World.answering 200 (.ok (.obj [])))).exitCode = 0 ∧
    (main (World.answering 200 (.ok (.obj [("predictions", .null)])))).fatal = false ∧
    (main (World.answering 200 (.ok (.obj [("predictions", .null)])))).exitCode = 0 ∧
    (main (World.answering 200
      (.ok (.obj [("predictions", .arr [.obj [("label", .str "cat")]])])))).fatal = false ∧
    (main (World.answering 200
      (.ok (.obj [("predictions", .arr [.obj [("label", .str "cat")]])])))).stdout =
      ["Object: cat, Confidence: 0.00, Bounding Box: [0, 0, 0, 0]\n"] := by
  decide

/-- C7, amended: for a well-formed JSON body the run is fatal exactly when some value
that is present has the wrong kind for the Go target it is stored into
(`responseAccepts` is false), and then no prediction line is printed; otherwise the
run is not fatal and exits with status 0. -/
theorem type_mismatch_fatal_iff (w : World) (obj : FileObject) (v : JSON)
    (h : ReachesDecode w obj) (hb : w.body = .ok v) :
    ((main w).fatal = true ↔ responseAccepts v = false) ∧
    (responseAccepts v = false → (main w).stdout = [] ∧ (main w).exitCode = 1) ∧
    (responseAccepts v = true → (main w).fatal = false ∧ (main w).exitCode = 0) := by
  have hiff : (main w).fatal = true ↔ responseAccepts v = false := by
    rw [main_fatal_iff, Bool.eq_false_iff, Ne, ← unmarshal_ok_iff v DetectionResponse.zero,
      ← hb]
    constructor
    · rintro hn ⟨resp, hd⟩
      exact hn ⟨obj, resp, h, hd⟩
    · rintro hn ⟨_, resp, _, hd⟩
      exact hn ⟨resp, hd⟩
  refine ⟨hiff, fun hv => ?_, fun hv => ?_⟩
  · have hm := main_not_ok w ((main_fatal_iff w).1 (hiff.2 hv))
    exact ⟨hm.2.2, hm.2.1⟩
  · obtain ⟨resp, hd⟩ := (unmarshal_ok_iff v DetectionResponse.zero).2 hv
    rw [← hb] at hd
    exact main_ok_not_fatal w obj resp h hd

/-- Witness for C7, amended: a `label` that is a number. -/
theorem type_mismatch_fatal_iff_witness :
    ReachesDecode (World.answering 200
      (.ok (.obj [("predictions", .arr [.obj [("label", .num (.ofNat 5))]])])))
      threeBytes ∧
    (main (World.answering 200
      (.ok (.obj [("predictions", .arr [.obj [("label", .num (.ofNat 5))]])])))).fatal = true :=
  have h : ReachesDecode (World.answering 200
      (.ok (.obj [("predictions", .arr [.obj [("label", .num (.ofNat 5))]])])))
      threeBytes := ⟨⟨rfl, rfl, rfl, rfl, rfl, rfl⟩, rfl, rfl⟩
  ⟨h, (type_mismatch_fatal_iff _ threeBytes
    (.obj [("predictions", .arr [.obj [("label", .num (.ofNat 5))]])]) h rfl).1.2 (by decide)⟩

/-- C8: when every step through the decode succeeds and the decoded predictions are
empty, the run writes nothing to standard output and exits normally with status 0. -/
theorem empty_predictions_exit_zero (w : World) (obj : FileObject) (resp : DetectionResponse)
    (h : ReachesDecode w obj) (hd : Unmarshal w.body DetectionResponse.zero = .ok resp)
    (he : resp.Predictions.toList = []) :
    (main w).stdout = [] ∧ (main w).exitCode = 0 ∧ (main w).fatal = false := by
  refine ⟨?_, (main_ok_not_fatal w obj resp h hd).2, (main_ok_not_fatal w obj resp h hd).1⟩
  rw [main_ok_stdout w obj resp h hd, he]
  rfl

/-- Witness for C8: the body holds an empty `predictions` array. -/
theorem empty_predictions_exit_zero_witness :
    (main (World.answering 200 (.ok (.obj [("predictions", .arr [])])))).stdout = [] ∧
    (main (World.answering 200 (.ok (.obj [("predictions", .arr [])])))).exitCode = 0 ∧
    (main (World.answering 200 (.ok (.obj [("predictions", .arr [])])))).fatal = false :=
  empty_predictions_exit_zero (World.answering 200 (.ok (.obj [("predictions", .arr [])])))
    threeBytes ⟨⟨[], 0⟩⟩ ⟨⟨rfl, rfl, rfl, rfl, rfl, rfl⟩, rfl, rfl⟩ rfl rfl

/-- C9: for every finite `float64` confidence, of any sign and magnitude, the text
after `Confidence: ` on the line is a sign (if the sign bit is set), the decimal
digits of a natural number `q`, a point and exactly two digits `d1 d2`, and that
numeral is the magnitude rounded to two decimal places: it differs from it by at
most `0.005`, and in a tie the last digit is even. -/
theorem confidence_two_decimals (p : Prediction) :
    ∃ q d1 d2 : Nat, d1 < 10 ∧ d2 < 10 ∧
      formatLine p = "Object: " ++ p.Label ++ ", Confidence: " ++
        ((if p.Score.neg then "-" else "") ++ Nat.repr q ++ "." ++
          String.mk [Nat.digitChar d1, Nat.digitChar d2]) ++
        ", Bounding Box: [" ++ fmtD p.XMin ++ ", " ++ fmtD p.YMin ++ ", " ++ fmtD p.XMax ++
        ", " ++ fmtD p.YMax ++ "]" ∧
      |p.Score.abs - ((q : ℚ) + (d1 : ℚ) / 10 + (d2 : ℚ) / 100)| ≤ 1 / 200 ∧
      (|p.Score.abs - ((q : ℚ) + (d1 : ℚ) / 10 + (d2 : ℚ) / 100)| = 1 / 200 → d2 % 2 = 0) := by
  obtain ⟨hle, heven⟩ := hundredths_close p.Score
  have hn : ((p.Score.hundredths / 100 : ℕ) : ℚ) + ((p.Score.hundredths % 100 / 10 : ℕ) : ℚ) / 10
      + ((p.Score.hundredths % 10 : ℕ) : ℚ) / 100 = (p.Score.hundredths : ℚ) / 100 := by
    have h1 : p.Score.hundredths = 100 * (p.Score.hundredths / 100)
        + 10 * (p.Score.hundredths % 100 / 10) + p.Score.hundredths % 10 := by omega
    have h2 : (p.Score.hundredths : ℚ) = ((100 * (p.Score.hundredths / 100)
        + 10 * (p.Score.hundredths % 100 / 10) + p.Score.hundredths % 10 : ℕ) : ℚ) := by
      rw [← h1]
    rw [h2]
    push_cast
    ring
  have hdiff : p.Score.abs - (p.Score.hundredths : ℚ) / 100
      = (p.Score.abs * 100 - p.Score.hundredths) / 100 := by ring
  have habs : |p.Score.abs - (p.Score.hundredths : ℚ) / 100|
      = |p.Score.abs * 100 - p.Score.hundredths| / 100 := by
    rw [hdiff, abs_div]
    norm_num
  refine ⟨p.Score.hundredths / 100, p.Score.hundredths % 100 / 10, p.Score.hundredths % 10,
    by omega, by omega, rfl, ?_, ?_⟩
  · rw [hn, habs]
    linarith
  · rw [hn, habs]
    intro he
    have := heven (by linarith)
    omega

/-- On a regular (seekable) file with content `B`, `io.ReadAll` leaves the offset at
the end, `file.Seek(0, 0)` puts it back to the start, and the `image` part of the one
request holds exactly `B`. -/
theorem image_part_of_seekable_file (w : World) (obj : FileObject) (h : ReachesSend w obj)
    (hs : obj.seekable = true) :
    obj.handle.readAll.2.pos = obj.content.length ∧
    obj.handle.readAll.2.seekStart.1.pos = 0 ∧
    (main w).requests.map Request.body =
      [closedFormData (randomBoundary w.rand) [⟨"image", imagePath, obj.content⟩]] := by
  refine ⟨?_, ?_, ?_⟩
  · simp only [FileObject.handle, File.readAll, Nat.zero_max]
  · simp only [FileObject.handle, File.readAll, File.seekStart, hs, if_true]
  · rw [requests_of_reachesSend w obj h]
    simp only [List.map_cons, List.map_nil, expectedRequest, copiedBytes, hs, if_true]

set_option maxRecDepth 8000 in
/-- C10, evaluated where it fails: the image path names a pipe that delivers the
bytes `FF D8 FF`.  `io.ReadAll` consumes them and leaves the offset at 3, the
unchecked `file.Seek(0, 0)` fails and leaves it there, `io.Copy` finds nothing, and
the run reaches the network call with a request whose `image` part is empty: the
closing delimiter follows the empty line at once, and no byte `FF` is in the body. -/
theorem unseekable_sends_empty_part :
    World.unseekable.openFile imagePath = .ok ⟨[0xFF, 0xD8, 0xFF], false⟩ ∧
    threeBytePipe.handle.readAll.2.seekStart.1.pos = 3 ∧
    (main World.unseekable).requests.map Request.body =
      [asciiBytes ("--" ++
          "000000000000000000000000000000000000000000000000000000000000" ++ "\r\n" ++
          ("Content-Disposition: form-data; name=\"image\"; " ++
           "filename=\"..\\\\..\\\\TestData\\\\Objects\\\\study-group.jpg\"\r\n" ++
           "Content-Type: application/octet-stream\r\n") ++ "\r\n" ++ "\r\n--" ++
          "000000000000000000000000000000000000000000000000000000000000" ++ "--\r\n")] ∧
    (∀ q ∈ (main World.unseekable).requests, (0xFF : UInt8) ∉ q.body) ∧
    (main World.unseekable).exitCode = 0 := by
  exact ⟨rfl, by decide⟩

end ObjectDetect
